import Mathlib

/-!
Shallow embedding of the RAGCore analytic core (`src/lib/rag/ragService.ts` and
the vector store) together with theorems checking the natural-language
specification against it.  JavaScript `number` values are modelled as real
numbers; JavaScript `Map` objects are modelled as insertion-ordered association
lists; `localStorage` I/O is modelled by an explicit success/failure flag.
-/

namespace RAGCore

/-- A feedback event, as in `FeedbackEvent` of `types.ts`: a `timestamp`, a
polarity `isPositive`, and a `weight` field that is rewritten on every score
recomputation to hold the current time-decayed weight. -/
structure FeedbackEvent where
  timestamp : ℝ
  isPositive : Bool
  weight : ℝ

/-- The `TIME_DECAY_HALF_LIFE` constant of `RAGService`: 30 days in
milliseconds. -/
def TIME_DECAY_HALF_LIFE : ℝ := 30 * 24 * 60 * 60 * 1000

/-- The time-decayed weight of an event, as computed inside
`updateLearningScoreWithDecay`: `Math.exp((-age / halfLife) * Math.log(2))`
with `age = currentTime - event.timestamp`. -/
noncomputable def decayWeight (currentTime timestamp : ℝ) : ℝ :=
  Real.exp (-(currentTime - timestamp) / TIME_DECAY_HALF_LIFE * Real.log 2)

/-- The `weightedTotal` accumulator of `updateLearningScoreWithDecay`: the sum
of the decayed weights of all events. -/
noncomputable def weightedTotal (history : List FeedbackEvent) (currentTime : ℝ) : ℝ :=
  history.foldl (fun acc e => acc + decayWeight currentTime e.timestamp) 0

/-- The `weightedPositive` accumulator of `updateLearningScoreWithDecay`: the
sum of the decayed weights of the positive events. -/
noncomputable def weightedPositive (history : List FeedbackEvent) (currentTime : ℝ) : ℝ :=
  history.foldl
    (fun acc e => if e.isPositive then acc + decayWeight currentTime e.timestamp else acc) 0

/-- Result of one score recomputation: the new `learningScore`, the new
`confidenceInterval`, and the history with every event's `weight` field
refreshed (the `event.weight = weight` assignment in the source). -/
structure ScoreResult where
  learningScore : ℝ
  confidenceInterval : ℝ × ℝ
  feedbackHistory : List FeedbackEvent

/-- Mirror of `RAGService.updateLearningScoreWithDecay`, acting on a source's feedback
history at a given current time. -/
noncomputable def updateLearningScoreWithDecay (history : List FeedbackEvent)
    (currentTime : ℝ) : ScoreResult :=
  if history.length = 0 then
    { learningScore := 0.5, confidenceInterval := (0.3, 0.7), feedbackHistory := history }
  else
    let newHistory := history.map fun e => { e with weight := decayWeight currentTime e.timestamp }
    let wp := weightedPositive history currentTime
    let wt := weightedTotal history currentTime
    let smoothing : ℝ := 2
    let learningScore := (wp + 1) / (wt + smoothing)
    let n := wt
    let p := wp / wt
    let z : ℝ := 1.96
    if 0 < n then
      let denominator := 1 + z * z / n
      let center := (p + z * z / (2 * n)) / denominator
      let margin := z / denominator * Real.sqrt (p * (1 - p) / n + z * z / (4 * (n * n)))
      { learningScore := learningScore,
        confidenceInterval := (max 0 (center - margin), min 1 (center + margin)),
        feedbackHistory := newHistory }
    else
      { learningScore := learningScore,
        confidenceInterval := (0.3, 0.7),
        feedbackHistory := newHistory }

/-- Clamping into `[0,1]`, as the spec words it for the Wilson interval. -/
noncomputable def clamp01 (x : ℝ) : ℝ := min 1 (max 0 x)

/-- The Wilson score interval at `z = 1.96` over `p` and `n`, clamped into
`[0,1]`, exactly as §4.3 of the spec words it. -/
noncomputable def wilsonIntervalSpec (p n : ℝ) : ℝ × ℝ :=
  let z : ℝ := 1.96
  let center := (p + z * z / (2 * n)) / (1 + z * z / n)
  let margin := z / (1 + z * z / n) * Real.sqrt (p * (1 - p) / n + z * z / (4 * (n * n)))
  (clamp01 (center - margin), clamp01 (center + margin))

/-- The FeedbackLearner `computeScore` contract as the spec words it: Laplace
smoothed score `(weightedPositive + 1) / (weightedTotal + 2)`, Wilson interval
over `p = weightedPositive/weightedTotal` and `n = weightedTotal`, with the
`n = 0` default of score `0.5` and interval `[0.3, 0.7]`. -/
noncomputable def computeScoreSpec (history : List FeedbackEvent) (now : ℝ) : ℝ × (ℝ × ℝ) :=
  let wp := weightedPositive history now
  let wt := weightedTotal history now
  if wt = 0 then (0.5, (0.3, 0.7))
  else ((wp + 1) / (wt + 2), wilsonIntervalSpec (wp / wt) wt)

/-- A single positive feedback event at time `0` with its initial weight. -/
noncomputable def c3Event : FeedbackEvent := { timestamp := 0, isPositive := true, weight := 1 }

/-- Three positive feedback events recorded at time `0`. -/
noncomputable def c3History : List FeedbackEvent := [c3Event, c3Event, c3Event]

/-- Mirror of `SourceUsageStats` of `types.ts`. -/
structure UsageStats where
  timesUsed : ℕ
  positiveRatings : ℕ
  negativeRatings : ℕ
  lastUsed : Option ℝ
  learningScore : ℝ
  confidenceInterval : ℝ × ℝ
  feedbackHistory : List FeedbackEvent

/-- Mirror of `DocumentSource` of `types.ts` (the `type` enum is kept as a string). -/
structure DocumentSource where
  id : String
  name : String
  sourceType : String
  chunks : ℕ
  priority : ℕ
  addedAt : ℝ
  usageStats : UsageStats

/-- Lookup in a JavaScript `Map`, modelled as an insertion-ordered association
list: `m.get(k)`. -/
def mapGet {α : Type} (m : List (String × α)) (k : String) : Option α :=
  (m.find? fun p => p.1 == k).map (fun p => p.2)

/-- Update in a JavaScript `Map`: `m.set(k, v)` overwrites an existing entry in
place (keeping its position) and otherwise appends a new entry. -/
def mapSet {α : Type} (m : List (String × α)) (k : String) (v : α) : List (String × α) :=
  if m.any (fun p => p.1 == k) then m.map (fun p => if p.1 == k then (k, v) else p)
  else m ++ [(k, v)]

/-- The `AUTO_ADJUST_THRESHOLD` constant of `RAGService` (minimum ratings
before auto-adjusting). -/
def AUTO_ADJUST_THRESHOLD : ℕ := 5

/-- Mirror of `RAGService.autoAdjustPriority`: skip when the confidence interval is wider
than `0.3`, otherwise map the learning score to a priority level and assign it
when it differs from the current one. -/
noncomputable def autoAdjustPriority (source : DocumentSource) : DocumentSource :=
  let score := source.usageStats.learningScore
  let lower := source.usageStats.confidenceInterval.1
  let upper := source.usageStats.confidenceInterval.2
  let confidence := upper - lower
  if 0.3 < confidence then source
  else
    let newPriority : ℕ :=
      if 0.8 ≤ score then 5
      else if 0.65 ≤ score then 4
      else if 0.35 ≤ score then 3
      else if 0.2 ≤ score then 2
      else 1
    if newPriority ≠ source.priority then { source with priority := newPriority } else source

/-- The priority mapping of §4.3 of the spec: `≥0.8→5, ≥0.65→4, ≥0.35→3,
≥0.2→2, else→1`. -/
noncomputable def priorityForScoreSpec (score : ℝ) : ℕ :=
  if 0.8 ≤ score then 5
  else if 0.65 ≤ score then 4
  else if 0.35 ≤ score then 3
  else if 0.2 ≤ score then 2
  else 1

/-- The mutation applied to one found source inside the `forEach` body of
`RAGService.processFeedback`: append the feedback event, bump the raw
counters, recompute score and interval with decay, and auto-adjust the
priority once the rating count has reached the threshold. -/
noncomputable def applyFeedbackToSource (source : DocumentSource) (isPositive : Bool)
    (now : ℝ) : DocumentSource :=
  let event : FeedbackEvent := { timestamp := now, isPositive := isPositive, weight := 1 }
  let history1 := source.usageStats.feedbackHistory ++ [event]
  let pos1 := if isPositive then source.usageStats.positiveRatings + 1
    else source.usageStats.positiveRatings
  let neg1 := if isPositive then source.usageStats.negativeRatings
    else source.usageStats.negativeRatings + 1
  let r := updateLearningScoreWithDecay history1 now
  let source1 := { source with usageStats :=
    { source.usageStats with
      feedbackHistory := r.feedbackHistory,
      positiveRatings := pos1,
      negativeRatings := neg1,
      learningScore := r.learningScore,
      confidenceInterval := r.confidenceInterval } }
  let totalRatings := pos1 + neg1
  if AUTO_ADJUST_THRESHOLD ≤ totalRatings then autoAdjustPriority source1 else source1

/-- The per-source-id body of `RAGService.processFeedback`: ids absent from
the sources map are skipped, found sources are mutated in place. -/
noncomputable def processOneFeedback (sources : List (String × DocumentSource))
    (sourceId : String) (isPositive : Bool) (now : ℝ) : List (String × DocumentSource) :=
  match mapGet sources sourceId with
  | none => sources
  | some source => mapSet sources sourceId (applyFeedbackToSource source isPositive now)

/-- Per-config outcome statistics of an A/B test. -/
structure ConfigStats where
  questionsAnswered : ℕ
  positiveRatings : ℕ
  negativeRatings : ℕ
  avgConfidence : ℝ

/-- The two experiment arms. -/
inductive ConfigId where
  | A
  | B
deriving DecidableEq

/-- Possible values of the `winner` field. -/
inductive ABWinner where
  | A
  | B
  | inconclusive
deriving DecidableEq

/-- Mirror of `SourceConfiguration` of `types.ts`: a named map from source id to
priority. -/
structure SourceConfiguration where
  name : String
  sourcePriorities : List (String × ℕ)

/-- Mirror of `ABTestResults` of `types.ts`. -/
structure ABTestResults where
  configAStats : ConfigStats
  configBStats : ConfigStats
  winner : Option ABWinner
  pValue : Option ℝ

/-- Mirror of `ABTest` of `types.ts`. -/
structure ABTest where
  id : String
  name : String
  description : String
  startedAt : ℝ
  endedAt : Option ℝ
  configA : SourceConfiguration
  configB : SourceConfiguration
  activeConfig : ConfigId
  results : ABTestResults

/-- The in-memory state of `RAGService` relevant to the registry and the
experiment framework: the `sources` map and the `activeABTest` field. -/
structure RAGState where
  sources : List (String × DocumentSource)
  activeABTest : Option ABTest

/-- Increment of the active config's statistics performed by `processFeedback`
while a test is running: bump `questionsAnswered` and the matching rating
counter, and set `avgConfidence` to one minus the mean confidence-interval
width across all current sources. -/
noncomputable def bumpConfigStats (stats : ConfigStats) (isPositive : Bool)
    (sources : List (String × DocumentSource)) : ConfigStats :=
  let widthSum := sources.foldl
    (fun acc p => acc + (p.2.usageStats.confidenceInterval.2 - p.2.usageStats.confidenceInterval.1)) 0
  let avgConf := widthSum / (sources.length : ℝ)
  { stats with
    questionsAnswered := stats.questionsAnswered + 1,
    positiveRatings := if isPositive then stats.positiveRatings + 1 else stats.positiveRatings,
    negativeRatings := if isPositive then stats.negativeRatings else stats.negativeRatings + 1,
    avgConfidence := 1 - avgConf }

/-- Mirror of `RAGService.processFeedback`: early-return on an empty id list; otherwise
process each id against the sources map and, if a test is running, update the
active config's statistics. -/
noncomputable def processFeedback (st : RAGState) (sourceIds : List String)
    (isPositive : Bool) (now : ℝ) : RAGState :=
  if sourceIds.length = 0 then st
  else
    let sources1 := sourceIds.foldl (fun acc sid => processOneFeedback acc sid isPositive now)
      st.sources
    let test1 : Option ABTest :=
      match st.activeABTest with
      | none => none
      | some t =>
        match t.endedAt with
        | some _ => some t
        | none =>
          match t.activeConfig with
          | ConfigId.A => some { t with results :=
              { t.results with configAStats := bumpConfigStats t.results.configAStats isPositive sources1 } }
          | ConfigId.B => some { t with results :=
              { t.results with configBStats := bumpConfigStats t.results.configBStats isPositive sources1 } }
    { sources := sources1, activeABTest := test1 }

/-- Mirror of `RAGService.applyABTestConfig`: apply the chosen configuration's priorities
to the live sources map (ids absent from the map are skipped). -/
def applyABTestConfig (st : RAGState) (config : ConfigId) : RAGState :=
  match st.activeABTest with
  | none => st
  | some t =>
    let configData := (match config with
      | ConfigId.A => t.configA
      | ConfigId.B => t.configB)
    { st with sources :=
        (configData.sourcePriorities.foldl
          (fun acc pr =>
            match mapGet acc pr.1 with
            | none => acc
            | some s => mapSet acc pr.1 { s with priority := pr.2 })
          st.sources) }

/-- Mirror of `RAGService.startABTest`: snapshot the current priorities as the control
configuration, build the new test, install it as the active test, and apply
the randomly chosen configuration.  `now` stands for `Date.now()`, `nowStr`
for its decimal rendering used in the test id, and `rand` for the outcome of
the 50/50 `Math.random()` draw. -/
noncomputable def startABTest (st : RAGState) (now : ℝ) (nowStr : String)
    (name description : String) (configB : SourceConfiguration) (rand : ConfigId) :
    RAGState × ABTest :=
  let configA : SourceConfiguration :=
    { name := "Control (Current)",
      sourcePriorities := st.sources.map fun p => (p.2.id, p.2.priority) }
  let test : ABTest :=
    { id := "ab_" ++ nowStr, name := name, description := description, startedAt := now,
      endedAt := none, configA := configA, configB := configB, activeConfig := rand,
      results :=
        { configAStats :=
            { questionsAnswered := 0, positiveRatings := 0, negativeRatings := 0,
              avgConfidence := 0 },
          configBStats :=
            { questionsAnswered := 0, positiveRatings := 0, negativeRatings := 0,
              avgConfidence := 0 },
          winner := none, pValue := none } }
  let st1 : RAGState := { st with activeABTest := some test }
  (applyABTestConfig st1 test.activeConfig, test)

/-- Usage statistics of a freshly ingested source, as initialized by
`processPDF` and its siblings. -/
noncomputable def initialUsageStats : UsageStats :=
  { timesUsed := 0, positiveRatings := 0, negativeRatings := 0, lastUsed := none,
    learningScore := 0.5, confidenceInterval := (0.3, 0.7), feedbackHistory := [] }

/-- A freshly ingested demo source with the default priority `3`. -/
noncomputable def demoSource : DocumentSource :=
  { id := "s1", name := "doc.pdf", sourceType := "pdf", chunks := 1, priority := 3,
    addedAt := 0, usageStats := initialUsageStats }

/-- All-zero per-config statistics. -/
noncomputable def zeroConfigStats : ConfigStats :=
  { questionsAnswered := 0, positiveRatings := 0, negativeRatings := 0, avgConfidence := 0 }

/-- A running (started, not ended) A/B test over the demo source. -/
noncomputable def runningTest : ABTest :=
  { id := "ab_0", name := "first", description := "", startedAt := 0, endedAt := none,
    configA := { name := "Control (Current)", sourcePriorities := [("s1", 3)] },
    configB := { name := "exp", sourcePriorities := [("s1", 4)] },
    activeConfig := ConfigId.A,
    results :=
      { configAStats := zeroConfigStats, configBStats := zeroConfigStats,
        winner := none, pValue := none } }

/-- A registry state in which `runningTest` is `Running`. -/
noncomputable def c1State : RAGState :=
  { sources := [("s1", demoSource)], activeABTest := some runningTest }

/-- The experimental configuration passed to the second `startABTest` call in
the C1 counterexample. -/
def c1ConfigB : SourceConfiguration :=
  { name := "second exp", sourcePriorities := [("s1", 5)] }

/-- Mirror of `RAGService.normalCDF`: the closed-form approximation of the standard
normal CDF used for the A/B p-value. -/
noncomputable def normalCDF (z : ℝ) : ℝ :=
  0.5 * (1 + Real.sign z * Real.sqrt (1 - Real.exp (-2 * z * z / Real.pi)))

/-- Mirror of `RAGService.endABTest`: returns `(new state, returned test)`; `null`
returns are modelled as `none`. -/
noncomputable def endABTest (st : RAGState) (now : ℝ) : RAGState × Option ABTest :=
  match st.activeABTest with
  | none => (st, none)
  | some t =>
    match t.endedAt with
    | some _ => (st, none)
    | none =>
      let statsA := t.results.configAStats
      let statsB := t.results.configBStats
      let rateA : ℝ := if 0 < statsA.questionsAnswered then
          (statsA.positiveRatings : ℝ) / (statsA.questionsAnswered : ℝ) else 0
      let rateB : ℝ := if 0 < statsB.questionsAnswered then
          (statsB.positiveRatings : ℝ) / (statsB.questionsAnswered : ℝ) else 0
      let winner : ABWinner :=
        if |rateA - rateB| < 0.05 ∨ statsA.questionsAnswered < 10 ∨ statsB.questionsAnswered < 10
        then ABWinner.inconclusive
        else if rateB < rateA then ABWinner.A else ABWinner.B
      let n := statsA.questionsAnswered + statsB.questionsAnswered
      let pValue : Option ℝ :=
        if 20 < n then
          let pooledRate := ((statsA.positiveRatings + statsB.positiveRatings : ℕ) : ℝ) / (n : ℝ)
          let se := Real.sqrt (pooledRate * (1 - pooledRate) *
            (1 / (statsA.questionsAnswered : ℝ) + 1 / (statsB.questionsAnswered : ℝ)))
          let z := |rateA - rateB| / se
          some (2 * (1 - normalCDF z))
        else t.results.pValue
      let t1 :=
        { t with
            endedAt := some now,
            results := { t.results with winner := some winner, pValue := pValue } }
      ({ st with activeABTest := some t1 }, some t1)

/-- Positive-rating rate of one config as the spec words it:
`positiveRatings / questionsAnswered`, taken as `0` when `questionsAnswered`
is `0`. -/
noncomputable def configRateSpec (stats : ConfigStats) : ℝ :=
  if stats.questionsAnswered = 0 then 0
  else (stats.positiveRatings : ℝ) / (stats.questionsAnswered : ℝ)

/-- The winner rule as the spec words it: `inconclusive` when
`|rateA - rateB| < 0.05` or either side has fewer than 10 questions answered,
otherwise the side with the higher rate. -/
noncomputable def winnerSpec (statsA statsB : ConfigStats) : ABWinner :=
  if |configRateSpec statsA - configRateSpec statsB| < 0.05
      ∨ statsA.questionsAnswered < 10 ∨ statsB.questionsAnswered < 10 then
    ABWinner.inconclusive
  else if configRateSpec statsB < configRateSpec statsA then ABWinner.A else ABWinner.B

/-- The normal-CDF approximation named in the spec:
`Φ(z) = 0.5 (1 + sign z · sqrt (1 - exp (-2 z² / π)))`. -/
noncomputable def phiSpec (z : ℝ) : ℝ :=
  0.5 * (1 + Real.sign z * Real.sqrt (1 - Real.exp (-2 * z ^ 2 / Real.pi)))

/-- The pooled two-proportion z-test p-value as the spec words it:
`z = (rateA - rateB) / se` with the pooled standard error, and
`pValue = 2 (1 - Φ |z|)`. -/
noncomputable def pValueSpec (statsA statsB : ConfigStats) : ℝ :=
  let n := statsA.questionsAnswered + statsB.questionsAnswered
  let pooled := ((statsA.positiveRatings + statsB.positiveRatings : ℕ) : ℝ) / (n : ℝ)
  let se := Real.sqrt (pooled * (1 - pooled) *
    (1 / (statsA.questionsAnswered : ℝ) + 1 / (statsB.questionsAnswered : ℝ)))
  let z := (configRateSpec statsA - configRateSpec statsB) / se
  2 * (1 - phiSpec |z|)

/-- Well-formedness of one source's learning statistics, as §3 of the spec
states them: `learningScore ∈ [0,1]` and an ordered confidence interval inside
`[0,1]`. -/
def statsWF (u : UsageStats) : Prop :=
  0 ≤ u.learningScore ∧ u.learningScore ≤ 1 ∧
  0 ≤ u.confidenceInterval.1 ∧
  u.confidenceInterval.1 ≤ u.confidenceInterval.2 ∧
  u.confidenceInterval.2 ≤ 1

/-- Well-formedness of every source in a sources map. -/
def allWF (m : List (String × DocumentSource)) : Prop := ∀ p ∈ m, statsWF p.2.usageStats

/-- The statistics record of the currently active experiment arm. -/
def activeConfigStats (t : ABTest) : ConfigStats :=
  match t.activeConfig with
  | ConfigId.A => t.results.configAStats
  | ConfigId.B => t.results.configBStats

/-- The `localStorage.setItem` call inside `saveSourcesToStorage`, modelled
with an explicit failure flag: a failing external store throws. -/
def setItemResult (persistFails : Bool) : Except String Unit :=
  if persistFails then Except.error "persistence write failed" else Except.ok ()

/-- Mirror of `RAGService.saveSourcesToStorage`: the write is wrapped in `try/catch`; a
failure is logged to the console and not re-thrown, so the caller observes
success either way.  The returned value is the outcome surfaced to the
caller. -/
def saveSourcesToStorage (persistFails : Bool) : Except String Unit :=
  match setItemResult persistFails with
  | Except.error _ => Except.ok ()
  | Except.ok _ => Except.ok ()

/-- Mirror of `RAGService.processFeedback` together with its trailing persistence write:
the early return on an empty id list performs no write; otherwise the mutated
state is kept in memory and the write outcome (as surfaced by
`saveSourcesToStorage`) is handed to the caller. -/
noncomputable def processFeedbackPersist (st : RAGState) (sourceIds : List String)
    (isPositive : Bool) (now : ℝ) (persistFails : Bool) : RAGState × Except String Unit :=
  if sourceIds.length = 0 then (st, Except.ok ())
  else (processFeedback st sourceIds isPositive now, saveSourcesToStorage persistFails)

/-- A registry state holding just the freshly ingested demo source, with no
experiment running. -/
noncomputable def demoState : RAGState :=
  { sources := [("s1", demoSource)], activeABTest := none }

/-- The score recomputation triggered by recording one feedback event on a
source: `updateLearningScoreWithDecay` over the history extended by the new
event. -/
noncomputable def feedbackScoreResult (source : DocumentSource) (isPositive : Bool)
    (now : ℝ) : ScoreResult :=
  updateLearningScoreWithDecay
    (source.usageStats.feedbackHistory
      ++ [{ timestamp := now, isPositive := isPositive, weight := 1 }]) now

/-- The rating count of a source right after one more rating has been
recorded: `positiveRatings + negativeRatings + 1`. -/
def newRatingCount (source : DocumentSource) : ℕ :=
  source.usageStats.positiveRatings + source.usageStats.negativeRatings + 1

/-- A timestamp in the past whose decayed weight at time `0` is exactly
`1807/1875`, chosen so that the weighted total below is exactly
`16807/1875` and the Wilson interval width is exactly `0.3`. -/
noncomputable def c5OldTimestamp : ℝ :=
  TIME_DECAY_HALF_LIFE * (Real.log (1807 / 1875) / Real.log 2)

/-- An old positive feedback event carrying decayed weight `1807/1875` at
time `0`. -/
noncomputable def c5OldEvent : FeedbackEvent :=
  { timestamp := c5OldTimestamp, isPositive := true, weight := 1 }

/-- Seven positive events at time `0` followed by the old event. -/
noncomputable def c5History : List FeedbackEvent := List.replicate 7 c3Event ++ [c5OldEvent]

/-- Usage statistics of the C5 counterexample source before the ninth
feedback event arrives. -/
noncomputable def c5Stats : UsageStats :=
  { timesUsed := 8, positiveRatings := 8, negativeRatings := 0, lastUsed := some 0,
    learningScore := 0.9, confidenceInterval := (0.8, 1), feedbackHistory := c5History }

/-- The C5 counterexample source: priority `3`, eight positive ratings on
record. -/
noncomputable def c5Source : DocumentSource :=
  { id := "s1", name := "doc.pdf", sourceType := "pdf", chunks := 1, priority := 3,
    addedAt := 0, usageStats := c5Stats }

/-- The sources map of the C5 counterexample. -/
noncomputable def c5Sources : List (String × DocumentSource) := [("s1", c5Source)]

/-- Mirror of `ChunkMetadata` of `types.ts`. -/
structure ChunkMetadata where
  source : String
  sourceType : String
  pageNumber : Option ℕ
  chunkIndex : ℕ
  totalChunks : ℕ
  priority : Option ℝ

/-- Mirror of `TextChunk` of `types.ts`: the embedding is optional. -/
structure TextChunk where
  id : String
  content : String
  metadata : ChunkMetadata
  embedding : Option (List ℝ)

/-- Mirror of `VectorSearchResult` of `types.ts`. -/
structure VectorSearchResult where
  chunk : TextChunk
  score : ℝ
  weightedScore : Option ℝ

/-- Mirror of `VectorStore.cosineSimilarity`: throws on a length mismatch, accumulates
the dot product and both squared norms in one pass, and returns `0` when the
product of the norms is `0`. -/
noncomputable def cosineSimilarity (a b : List ℝ) : Except String ℝ :=
  if a.length ≠ b.length then Except.error "Vectors must have the same length"
  else
    let dotProduct := ((a.zip b).map fun p => p.1 * p.2).sum
    let normA := (a.map fun x => x * x).sum
    let normB := (b.map fun x => x * x).sum
    let magnitude := Real.sqrt normA * Real.sqrt normB
    Except.ok (if magnitude = 0 then 0 else dotProduct / magnitude)

/-- Cosine similarity as §4.1 of the spec words it: `dot(a,b) / (‖a‖·‖b‖)`,
defined as `0` whenever either norm is `0`. -/
noncomputable def cosineSimilaritySpec (a b : List ℝ) : ℝ :=
  let na := Real.sqrt ((a.map fun x => x * x).sum)
  let nb := Real.sqrt ((b.map fun x => x * x).sum)
  if na = 0 ∨ nb = 0 then 0
  else ((a.zip b).map fun p => p.1 * p.2).sum / (na * nb)

/-- The descending comparison induced by a sort key, as used by the JavaScript
comparators `(a, b) => keyOf(b) - keyOf(a)`. -/
def keyGE (key : VectorSearchResult → ℝ) (x y : VectorSearchResult) : Prop := key y ≤ key x

noncomputable instance (key : VectorSearchResult → ℝ) : DecidableRel (keyGE key) :=
  fun x y => Real.decidableLE (key y) (key x)

instance (key : VectorSearchResult → ℝ) : IsTotal VectorSearchResult (keyGE key) :=
  ⟨fun a b => le_total (key b) (key a)⟩

instance (key : VectorSearchResult → ℝ) : IsTrans VectorSearchResult (keyGE key) :=
  ⟨fun _ _ _ hab hbc => le_trans hbc hab⟩

/-- The scoring loop of `VectorStore.search`: chunks without an embedding are
skipped, a dimension mismatch aborts the whole call with the thrown error. -/
noncomputable def searchScored (chunks : List TextChunk) (queryEmbedding : List ℝ) :
    Except String (List VectorSearchResult) :=
  match chunks with
  | [] => Except.ok []
  | c :: rest =>
    match c.embedding with
    | none => searchScored rest queryEmbedding
    | some e =>
      match cosineSimilarity queryEmbedding e with
      | Except.error msg => Except.error msg
      | Except.ok score =>
        (searchScored rest queryEmbedding).map
          (fun tail => { chunk := c, score := score, weightedScore := none } :: tail)

/-- Mirror of `VectorStore.search`: score, sort by score descending (JavaScript's
`Array.prototype.sort` is stable), truncate to `topK`. -/
noncomputable def search (chunks : List TextChunk) (queryEmbedding : List ℝ) (topK : ℕ) :
    Except String (List VectorSearchResult) :=
  (searchScored chunks queryEmbedding).map
    fun results => (results.insertionSort (keyGE VectorSearchResult.score)).take topK

/-- JavaScript's `x || y` on an optional number: `y` when `x` is absent or
equal to `0` (falsy), `x`'s value otherwise. -/
noncomputable def orFalsy (x : Option ℝ) (y : ℝ) : ℝ :=
  match x with
  | none => y
  | some v => if v = 0 then y else v

/-- Priority resolution of `VectorStore.searchWeighted`:
`chunk.metadata.priority || sourcePriorities.get(chunk.metadata.source) || 3`. -/
noncomputable def resolvePriority (chunk : TextChunk)
    (sourcePriorities : List (String × ℝ)) : ℝ :=
  orFalsy chunk.metadata.priority (orFalsy (mapGet sourcePriorities chunk.metadata.source) 3)

/-- Priority resolution as §4.1 of the spec words it: the chunk-level override
if present, else the caller-supplied map entry keyed by source name, else
`3`. -/
noncomputable def resolvePrioritySpec (chunk : TextChunk)
    (sourcePriorities : List (String × ℝ)) : ℝ :=
  match chunk.metadata.priority with
  | some p => p
  | none =>
    match mapGet sourcePriorities chunk.metadata.source with
    | some p => p
    | none => 3

/-- The scoring loop of `VectorStore.searchWeighted`: the base score is
retained and the weighted score is `baseScore * (0.5 + priority * 0.2)`. -/
noncomputable def searchWeightedScored (chunks : List TextChunk) (queryEmbedding : List ℝ)
    (sourcePriorities : List (String × ℝ)) : Except String (List VectorSearchResult) :=
  match chunks with
  | [] => Except.ok []
  | c :: rest =>
    match c.embedding with
    | none => searchWeightedScored rest queryEmbedding sourcePriorities
    | some e =>
      match cosineSimilarity queryEmbedding e with
      | Except.error msg => Except.error msg
      | Except.ok baseScore =>
        let priority := resolvePriority c sourcePriorities
        let priorityMultiplier := 0.5 + priority * 0.2
        (searchWeightedScored rest queryEmbedding sourcePriorities).map
          (fun tail =>
            { chunk := c, score := baseScore,
              weightedScore := some (baseScore * priorityMultiplier) } :: tail)

/-- The sort key of the `searchWeighted` comparator:
`(b.weightedScore || b.score)`. -/
noncomputable def weightedKey (r : VectorSearchResult) : ℝ := orFalsy r.weightedScore r.score

/-- Mirror of `VectorStore.searchWeighted`: score with priority weighting, sort by the
weighted score descending (stable), truncate to `topK`. -/
noncomputable def searchWeighted (chunks : List TextChunk) (queryEmbedding : List ℝ)
    (topK : ℕ) (sourcePriorities : List (String × ℝ)) :
    Except String (List VectorSearchResult) :=
  (searchWeightedScored chunks queryEmbedding sourcePriorities).map
    fun results => (results.insertionSort (keyGE weightedKey)).take topK

/-- The list built by the `search` loop: every embedded chunk scored by cosine
similarity, in insertion order. -/
noncomputable def scoredResults (chunks : List TextChunk) (q : List ℝ) :
    List VectorSearchResult :=
  chunks.filterMap fun c => c.embedding.map fun e =>
    { chunk := c, score := cosineSimilaritySpec q e, weightedScore := none }

/-- The list built by the `searchWeighted` loop: every embedded chunk scored,
with `weightedScore = baseScore * (0.5 + priority * 0.2)`, in insertion
order. -/
noncomputable def weightedResults (chunks : List TextChunk) (q : List ℝ)
    (m : List (String × ℝ)) : List VectorSearchResult :=
  chunks.filterMap fun c => c.embedding.map fun e =>
    { chunk := c, score := cosineSimilaritySpec q e,
      weightedScore := some (cosineSimilaritySpec q e * (0.5 + resolvePriority c m * 0.2)) }

/-- What it means for `out` to be the stable descending sort of `input` under
a sort key: `out` is sorted, and within every key class the original order is
kept (this pins `out` uniquely). -/
def IsStableDescSort (key : VectorSearchResult → ℝ) (input out : List VectorSearchResult) :
    Prop :=
  out.Sorted (keyGE key) ∧
  ∀ c : ℝ, out.filter (fun r => decide (key r = c)) = input.filter (fun r => decide (key r = c))

/-- A chunk of the §8 scenario: embedding `[1, 0]`, no chunk-level priority
override. -/
noncomputable def c6Chunk (id src : String) : TextChunk :=
  { id := id, content := "",
    metadata :=
      { source := src, sourceType := "text", pageNumber := none,
        chunkIndex := 0, totalChunks := 3, priority := none },
    embedding := some [1, 0] }

/-- The §8 scenario index: three chunks from source `A`, three from `B`. -/
noncomputable def c6Chunks : List TextChunk :=
  [c6Chunk "a1" "A", c6Chunk "a2" "A", c6Chunk "a3" "A",
   c6Chunk "b1" "B", c6Chunk "b2" "B", c6Chunk "b3" "B"]

/-- The §8 scenario priority map: source `A` at priority 5, source `B` at 1. -/
noncomputable def c6Prios : List (String × ℝ) := [("A", 5), ("B", 1)]

/-- The expected §8 scenario output: the `A` chunks at weighted score `1.5`
strictly above the `B` chunks at `0.7`, all with base score `1` retained. -/
noncomputable def c6Expected : List VectorSearchResult :=
  [{ chunk := c6Chunk "a1" "A", score := 1, weightedScore := some 1.5 },
   { chunk := c6Chunk "a2" "A", score := 1, weightedScore := some 1.5 },
   { chunk := c6Chunk "a3" "A", score := 1, weightedScore := some 1.5 },
   { chunk := c6Chunk "b1" "B", score := 1, weightedScore := some 0.7 },
   { chunk := c6Chunk "b2" "B", score := 1, weightedScore := some 0.7 },
   { chunk := c6Chunk "b3" "B", score := 1, weightedScore := some 0.7 }]

/-- Per-config statistics of the C2 witness: 15 questions with 12 positives
on arm A. -/
noncomputable def c2StatsA : ConfigStats :=
  { questionsAnswered := 15, positiveRatings := 12, negativeRatings := 3, avgConfidence := 0 }

/-- Per-config statistics of the C2 witness: 15 questions with 3 positives on
arm B. -/
noncomputable def c2StatsB : ConfigStats :=
  { questionsAnswered := 15, positiveRatings := 3, negativeRatings := 12, avgConfidence := 0 }

/-- A running test with accumulated statistics for the C2 witness. -/
noncomputable def c2Test : ABTest :=
  { runningTest with results :=
      { configAStats := c2StatsA, configBStats := c2StatsB, winner := none, pValue := none } }

/-- A registry state whose active test is `c2Test`. -/
noncomputable def c2State : RAGState := { sources := [], activeABTest := some c2Test }

theorem decayWeight_pos (t s : ℝ) : 0 < decayWeight t s :=
  Real.exp_pos _

theorem decayWeight_self (t : ℝ) : decayWeight t t = 1 := by
  simp [decayWeight]

theorem weightedTotal_shift (h : List FeedbackEvent) (t : ℝ) :
    ∀ a : ℝ,
      h.foldl (fun acc e => acc + decayWeight t e.timestamp) a =
        a + h.foldl (fun acc e => acc + decayWeight t e.timestamp) 0 := by
  induction h with
  | nil => intro a; simp
  | cons x xs ih =>
    intro a
    simp only [List.foldl_cons]
    rw [ih (a + decayWeight t x.timestamp), ih (0 + decayWeight t x.timestamp)]
    ring

theorem weightedTotal_cons (e : FeedbackEvent) (h : List FeedbackEvent) (t : ℝ) :
    weightedTotal (e :: h) t = decayWeight t e.timestamp + weightedTotal h t := by
  unfold weightedTotal
  simp only [List.foldl_cons]
  rw [weightedTotal_shift h t (0 + decayWeight t e.timestamp)]
  ring

theorem weightedTotal_append_single (h : List FeedbackEvent) (e : FeedbackEvent) (t : ℝ) :
    weightedTotal (h ++ [e]) t = weightedTotal h t + decayWeight t e.timestamp := by
  unfold weightedTotal
  rw [List.foldl_append]
  simp only [List.foldl_cons, List.foldl_nil]

theorem weightedPositive_eq_foldl (h : List FeedbackEvent) (t : ℝ) :
    weightedPositive h t =
      h.foldl (fun acc e => acc + (if e.isPositive then decayWeight t e.timestamp else 0)) 0 := by
  unfold weightedPositive
  have hfun : (fun (acc : ℝ) (e : FeedbackEvent) =>
      if e.isPositive then acc + decayWeight t e.timestamp else acc) =
      (fun acc e => acc + (if e.isPositive then decayWeight t e.timestamp else 0)) := by
    funext acc e
    by_cases hp : e.isPositive <;> simp [hp]
  rw [hfun]

theorem weightedPositive_shift (h : List FeedbackEvent) (t : ℝ) :
    ∀ a : ℝ,
      h.foldl (fun acc e => acc + (if e.isPositive then decayWeight t e.timestamp else 0)) a =
        a + h.foldl (fun acc e => acc + (if e.isPositive then decayWeight t e.timestamp else 0)) 0 := by
  induction h with
  | nil => intro a; simp
  | cons x xs ih =>
    intro a
    simp only [List.foldl_cons]
    rw [ih (a + (if x.isPositive then decayWeight t x.timestamp else 0)),
      ih (0 + (if x.isPositive then decayWeight t x.timestamp else 0))]
    ring

theorem weightedPositive_cons (e : FeedbackEvent) (h : List FeedbackEvent) (t : ℝ) :
    weightedPositive (e :: h) t =
      (if e.isPositive then decayWeight t e.timestamp else 0) + weightedPositive h t := by
  rw [weightedPositive_eq_foldl, weightedPositive_eq_foldl]
  simp only [List.foldl_cons]
  rw [weightedPositive_shift h t (0 + (if e.isPositive then decayWeight t e.timestamp else 0))]
  ring

theorem weightedPositive_append_single (h : List FeedbackEvent) (e : FeedbackEvent) (t : ℝ) :
    weightedPositive (h ++ [e]) t =
      weightedPositive h t + (if e.isPositive then decayWeight t e.timestamp else 0) := by
  rw [weightedPositive_eq_foldl, weightedPositive_eq_foldl]
  rw [List.foldl_append]
  simp only [List.foldl_cons, List.foldl_nil]

theorem weightedTotal_nonneg (h : List FeedbackEvent) (t : ℝ) : 0 ≤ weightedTotal h t := by
  induction h with
  | nil => simp [weightedTotal]
  | cons e hs ih =>
    rw [weightedTotal_cons]
    have := decayWeight_pos t e.timestamp
    linarith

theorem weightedPositive_nonneg (h : List FeedbackEvent) (t : ℝ) : 0 ≤ weightedPositive h t := by
  induction h with
  | nil => simp [weightedPositive]
  | cons e hs ih =>
    rw [weightedPositive_cons]
    have := decayWeight_pos t e.timestamp
    by_cases hp : e.isPositive <;> simp [hp] <;> linarith

theorem weightedPositive_le_weightedTotal (h : List FeedbackEvent) (t : ℝ) :
    weightedPositive h t ≤ weightedTotal h t := by
  induction h with
  | nil => simp [weightedPositive, weightedTotal]
  | cons e hs ih =>
    rw [weightedPositive_cons, weightedTotal_cons]
    have := decayWeight_pos t e.timestamp
    by_cases hp : e.isPositive <;> simp [hp] <;> linarith

theorem weightedTotal_pos (h : List FeedbackEvent) (t : ℝ) (hne : h ≠ []) :
    0 < weightedTotal h t := by
  cases h with
  | nil => exact absurd rfl hne
  | cons e hs =>
    rw [weightedTotal_cons]
    have h1 := decayWeight_pos t e.timestamp
    have h2 := weightedTotal_nonneg hs t
    linarith

theorem clamp01_eq_max (x : ℝ) (hx : x ≤ 1) : clamp01 x = max 0 x := by
  unfold clamp01
  rw [min_eq_right (max_le (by norm_num) hx)]

theorem clamp01_eq_min (x : ℝ) (hx : 0 ≤ x) : clamp01 x = min 1 x := by
  unfold clamp01
  rw [max_eq_right hx]

theorem wilson_center_nonneg (p n : ℝ) (hp0 : 0 ≤ p) (hn : 0 < n) :
    0 ≤ (p + 1.96 * 1.96 / (2 * n)) / (1 + 1.96 * 1.96 / n) := by
  apply div_nonneg
  · have : (0:ℝ) ≤ 1.96 * 1.96 / (2 * n) := by positivity
    linarith
  · have : (0:ℝ) ≤ 1.96 * 1.96 / n := by positivity
    linarith

theorem wilson_center_le_one (p n : ℝ) (hp1 : p ≤ 1) (hn : 0 < n) :
    (p + 1.96 * 1.96 / (2 * n)) / (1 + 1.96 * 1.96 / n) ≤ 1 := by
  rw [div_le_one (by positivity)]
  have h1 : 1.96 * 1.96 / (2 * n) ≤ 1.96 * 1.96 / n := by
    apply div_le_div_of_nonneg_left (by norm_num) hn
    linarith
  linarith

theorem wilson_margin_nonneg (p n : ℝ) (hn : 0 < n) :
    0 ≤ 1.96 / (1 + 1.96 * 1.96 / n) *
      Real.sqrt (p * (1 - p) / n + 1.96 * 1.96 / (4 * (n * n))) := by
  apply mul_nonneg
  · apply div_nonneg (by norm_num)
    have : (0:ℝ) ≤ 1.96 * 1.96 / n := by positivity
    linarith
  · exact Real.sqrt_nonneg _

/-- The interval computed by the code (`Math.max(0, center - margin)`,
`Math.min(1, center + margin)`) agrees with the spec's clamped Wilson interval
whenever `0 ≤ p ≤ 1` and `0 < n`. -/
theorem wilson_code_eq_spec (p n : ℝ) (hp0 : 0 ≤ p) (hp1 : p ≤ 1) (hn : 0 < n) :
    (max 0 ((p + 1.96 * 1.96 / (2 * n)) / (1 + 1.96 * 1.96 / n)
        - 1.96 / (1 + 1.96 * 1.96 / n) * Real.sqrt (p * (1 - p) / n + 1.96 * 1.96 / (4 * (n * n)))),
      min 1 ((p + 1.96 * 1.96 / (2 * n)) / (1 + 1.96 * 1.96 / n)
        + 1.96 / (1 + 1.96 * 1.96 / n) * Real.sqrt (p * (1 - p) / n + 1.96 * 1.96 / (4 * (n * n)))))
      = wilsonIntervalSpec p n := by
  have hc0 := wilson_center_nonneg p n hp0 hn
  have hc1 := wilson_center_le_one p n hp1 hn
  have hm := wilson_margin_nonneg p n hn
  simp only [wilsonIntervalSpec]
  rw [clamp01_eq_max _ (by linarith), clamp01_eq_min _ (by linarith)]

/-- Characterization of `updateLearningScoreWithDecay` on a nonempty history:
the branch that is actually taken (weighted totals are strictly positive in
exact arithmetic). -/
theorem updateLearningScore_nonempty (history : List FeedbackEvent) (now : ℝ)
    (hne : history ≠ []) :
    updateLearningScoreWithDecay history now =
      { learningScore :=
          (weightedPositive history now + 1) / (weightedTotal history now + 2),
        confidenceInterval :=
          (max 0 ((weightedPositive history now / weightedTotal history now
              + 1.96 * 1.96 / (2 * weightedTotal history now))
              / (1 + 1.96 * 1.96 / weightedTotal history now)
            - 1.96 / (1 + 1.96 * 1.96 / weightedTotal history now)
              * Real.sqrt (weightedPositive history now / weightedTotal history now
                  * (1 - weightedPositive history now / weightedTotal history now)
                  / weightedTotal history now
                + 1.96 * 1.96 / (4 * (weightedTotal history now * weightedTotal history now)))),
           min 1 ((weightedPositive history now / weightedTotal history now
              + 1.96 * 1.96 / (2 * weightedTotal history now))
              / (1 + 1.96 * 1.96 / weightedTotal history now)
            + 1.96 / (1 + 1.96 * 1.96 / weightedTotal history now)
              * Real.sqrt (weightedPositive history now / weightedTotal history now
                  * (1 - weightedPositive history now / weightedTotal history now)
                  / weightedTotal history now
                + 1.96 * 1.96 / (4 * (weightedTotal history now * weightedTotal history now))))),
        feedbackHistory :=
          history.map fun e => { e with weight := decayWeight now e.timestamp } } := by
  have hlen : ¬ history.length = 0 := by
    simpa [List.length_eq_zero] using hne
  have hwt : 0 < weightedTotal history now := weightedTotal_pos history now hne
  unfold updateLearningScoreWithDecay
  rw [if_neg hlen, if_pos hwt]

/-- C4: for every feedback history and current time, the recomputation assigns
each event the weight `exp(-age/H * ln 2)` with `H` = 30 days, sets
`learningScore = (weightedPositive + 1) / (weightedTotal + 2)`, and sets the
confidence interval to the Wilson score interval at `z = 1.96` over
`p = weightedPositive/weightedTotal`, `n = weightedTotal`, clamped into
`[0,1]`; on the empty history the score is exactly `0.5` and the interval
exactly `[0.3, 0.7]`. -/
theorem updateLearningScore_matches_spec (history : List FeedbackEvent) (now : ℝ) :
    ((updateLearningScoreWithDecay history now).learningScore,
        (updateLearningScoreWithDecay history now).confidenceInterval)
      = computeScoreSpec history now
    ∧ (updateLearningScoreWithDecay history now).feedbackHistory
      = history.map (fun e => { e with weight := decayWeight now e.timestamp })
    ∧ (updateLearningScoreWithDecay [] now).learningScore = 0.5
    ∧ (updateLearningScoreWithDecay [] now).confidenceInterval = (0.3, 0.7)
    ∧ TIME_DECAY_HALF_LIFE = 30 * 24 * 60 * 60 * 1000 := by
  refine ⟨?_, ?_, ?_, ?_, rfl⟩
  · by_cases hne : history = []
    · subst hne
      simp [updateLearningScoreWithDecay, computeScoreSpec, weightedTotal]
    · have hwt : 0 < weightedTotal history now := weightedTotal_pos history now hne
      have hwp0 := weightedPositive_nonneg history now
      have hwple := weightedPositive_le_weightedTotal history now
      rw [updateLearningScore_nonempty history now hne]
      unfold computeScoreSpec
      rw [if_neg (by linarith)]
      have hp0 : 0 ≤ weightedPositive history now / weightedTotal history now :=
        div_nonneg hwp0 (le_of_lt hwt)
      have hp1 : weightedPositive history now / weightedTotal history now ≤ 1 :=
        (div_le_one hwt).mpr hwple
      rw [← wilson_code_eq_spec _ _ hp0 hp1 hwt]
  · by_cases hne : history = []
    · subst hne
      simp [updateLearningScoreWithDecay]
    · rw [updateLearningScore_nonempty history now hne]
  · simp [updateLearningScoreWithDecay]
  · simp [updateLearningScoreWithDecay]

/-- Bounds on the output of one score recomputation: the learning score lies in
`[0,1]` and the confidence interval is an ordered pair inside `[0,1]`. -/
theorem updateLearningScore_bounds (history : List FeedbackEvent) (now : ℝ) :
    0 ≤ (updateLearningScoreWithDecay history now).learningScore ∧
    (updateLearningScoreWithDecay history now).learningScore ≤ 1 ∧
    0 ≤ (updateLearningScoreWithDecay history now).confidenceInterval.1 ∧
    (updateLearningScoreWithDecay history now).confidenceInterval.1 ≤
      (updateLearningScoreWithDecay history now).confidenceInterval.2 ∧
    (updateLearningScoreWithDecay history now).confidenceInterval.2 ≤ 1 := by
  by_cases hne : history = []
  · subst hne
    simp only [updateLearningScoreWithDecay]
    norm_num
  · rw [updateLearningScore_nonempty history now hne]
    dsimp only
    set wp := weightedPositive history now with hwpdef
    set wt := weightedTotal history now with hwtdef
    have hwt : 0 < wt := weightedTotal_pos history now hne
    have hwp0 : 0 ≤ wp := weightedPositive_nonneg history now
    have hwple : wp ≤ wt := weightedPositive_le_weightedTotal history now
    have hp0 : 0 ≤ wp / wt := div_nonneg hwp0 hwt.le
    have hp1 : wp / wt ≤ 1 := (div_le_one hwt).mpr hwple
    have hc0 := wilson_center_nonneg (wp / wt) wt hp0 hwt
    have hc1 := wilson_center_le_one (wp / wt) wt hp1 hwt
    have hm := wilson_margin_nonneg (wp / wt) wt hwt
    refine ⟨?_, ?_, ?_, ?_, ?_⟩
    · apply div_nonneg <;> linarith
    · rw [div_le_one (by linarith)]
      linarith
    · exact le_max_left 0 _
    · apply max_le
      · exact le_min (by norm_num) (by linarith)
      · exact le_min (by linarith) (by linarith)
    · exact min_le_left 1 _

/-- C3 (amended): appending a positive feedback event stamped with the current
time and recomputing at that same time can only raise or hold the learning
score.  (With an intervening time gap the claim fails, see the
counterexample.) -/
theorem recordPositive_monotone_same_time (history : List FeedbackEvent) (t : ℝ) :
    (updateLearningScoreWithDecay history t).learningScore ≤
      (updateLearningScoreWithDecay
        (history ++ [{ timestamp := t, isPositive := true, weight := 1 }]) t).learningScore := by
  have happ : (history ++ [({ timestamp := t, isPositive := true, weight := 1 } : FeedbackEvent)]) ≠ [] := by
    simp
  rw [updateLearningScore_nonempty _ t happ]
  dsimp only
  rw [weightedPositive_append_single, weightedTotal_append_single]
  simp only [decayWeight_self, if_true, ite_true, eq_self_iff_true]
  by_cases hne : history = []
  · subst hne
    simp only [updateLearningScoreWithDecay, List.length_nil, if_pos rfl]
    simp [weightedPositive, weightedTotal]
    norm_num
  · rw [updateLearningScore_nonempty history t hne]
    dsimp only
    set wp := weightedPositive history t
    set wt := weightedTotal history t
    have hwt : 0 < wt := weightedTotal_pos history t hne
    have hwp0 : 0 ≤ wp := weightedPositive_nonneg history t
    have hwple : wp ≤ wt := weightedPositive_le_weightedTotal history t
    rw [div_le_div_iff₀ (by linarith) (by linarith)]
    nlinarith

theorem decayWeight_halfLife_zero : decayWeight TIME_DECAY_HALF_LIFE 0 = 1 / 2 := by
  unfold decayWeight TIME_DECAY_HALF_LIFE
  have h1 : (-((30:ℝ) * 24 * 60 * 60 * 1000 - 0) / (30 * 24 * 60 * 60 * 1000)) * Real.log 2
      = -Real.log 2 := by
    norm_num
  rw [h1, Real.exp_neg, Real.exp_log (by norm_num : (0:ℝ) < 2)]
  norm_num

/-- C3 (counterexample): with three positive events at time `t0 = 0`
(`learningScore = 4/5`), appending a further positive event one half-life later
at `t1 = TIME_DECAY_HALF_LIFE` makes the recomputed score drop to `7/9 < 4/5`:
recording positive feedback can lower `learningScore` when time has passed. -/
theorem recordPositive_not_monotone_counterexample :
    (0:ℝ) ≤ TIME_DECAY_HALF_LIFE ∧
    (updateLearningScoreWithDecay
        (c3History ++ [{ timestamp := TIME_DECAY_HALF_LIFE, isPositive := true, weight := 1 }])
        TIME_DECAY_HALF_LIFE).learningScore
      < (updateLearningScoreWithDecay c3History 0).learningScore := by
  constructor
  · unfold TIME_DECAY_HALF_LIFE
    norm_num
  · have h0 : weightedTotal c3History 0 = 3 := by
      simp [c3History, c3Event, weightedTotal_cons, decayWeight_self, weightedTotal]
      norm_num
    have h0p : weightedPositive c3History 0 = 3 := by
      simp [c3History, c3Event, weightedPositive_cons, decayWeight_self, weightedPositive]
      norm_num
    have h1 : weightedTotal
        (c3History ++ [{ timestamp := TIME_DECAY_HALF_LIFE, isPositive := true, weight := 1 }])
        TIME_DECAY_HALF_LIFE = 5 / 2 := by
      rw [weightedTotal_append_single]
      simp [c3History, c3Event, weightedTotal_cons, decayWeight_self, decayWeight_halfLife_zero,
        weightedTotal]
      norm_num
    have h1p : weightedPositive
        (c3History ++ [{ timestamp := TIME_DECAY_HALF_LIFE, isPositive := true, weight := 1 }])
        TIME_DECAY_HALF_LIFE = 5 / 2 := by
      rw [weightedPositive_append_single]
      simp [c3History, c3Event, weightedPositive_cons, decayWeight_self, decayWeight_halfLife_zero,
        weightedPositive]
      norm_num
    rw [updateLearningScore_nonempty _ _ (by simp [c3History]),
      updateLearningScore_nonempty _ _ (by simp [c3History])]
    dsimp only
    rw [h0, h0p, h1, h1p]
    norm_num

/-- C1 (amended): `startABTest` performs no running-test check: even while a
test is `Running` it succeeds, replacing the active test by the newly built
one (control = snapshot of the current priorities, `endedAt` unset, started at
the current time) and applying the chosen configuration's priorities. -/
theorem startABTest_replaces_running_test (st : RAGState) (t : ABTest) (now : ℝ)
    (nowStr name description : String) (configB : SourceConfiguration) (rand : ConfigId)
    (_hrun : st.activeABTest = some t) (_hend : t.endedAt = none) :
    ((startABTest st now nowStr name description configB rand).1.activeABTest
        = some (startABTest st now nowStr name description configB rand).2) ∧
    ((startABTest st now nowStr name description configB rand).2.endedAt = none) ∧
    ((startABTest st now nowStr name description configB rand).2.startedAt = now) ∧
    ((startABTest st now nowStr name description configB rand).2.activeConfig = rand) ∧
    ((startABTest st now nowStr name description configB rand).2.configA.sourcePriorities
        = st.sources.map fun p => (p.2.id, p.2.priority)) ∧
    ((startABTest st now nowStr name description configB rand).2.configB = configB) := by
  cases rand <;>
    exact ⟨by rfl, rfl, rfl, rfl, rfl, rfl⟩

/-- C1 (counterexample): in a state whose A/B test is `Running` (`endedAt`
unset), `startABTest` is not rejected and does have effects: the active test
is replaced (its `startedAt` changes from `0` to `1`) and the priority of
source `s1` is rewritten from `3` to `5` by the newly applied configuration. -/
theorem startABTest_while_running_counterexample :
    (c1State.activeABTest.map ABTest.endedAt = some none) ∧
    ((startABTest c1State 1 "1" "second" "d" c1ConfigB ConfigId.B).1.activeABTest.map
        ABTest.startedAt = some 1) ∧
    (c1State.activeABTest.map ABTest.startedAt = some 0) ∧
    ((mapGet (startABTest c1State 1 "1" "second" "d" c1ConfigB ConfigId.B).1.sources "s1").map
        DocumentSource.priority = some 5) ∧
    ((mapGet c1State.sources "s1").map DocumentSource.priority = some 3) := by
  refine ⟨rfl, by rfl, rfl, ?_, rfl⟩
  simp [startABTest, applyABTestConfig, c1State, c1ConfigB, mapGet, mapSet, demoSource]

theorem normalCDF_eq_phiSpec (z : ℝ) : normalCDF z = phiSpec z := by
  unfold normalCDF phiSpec
  ring_nf

theorem codeRate_eq_spec (s : ConfigStats) :
    (if 0 < s.questionsAnswered then (s.positiveRatings : ℝ) / (s.questionsAnswered : ℝ) else 0)
      = configRateSpec s := by
  unfold configRateSpec
  rcases Nat.eq_zero_or_pos s.questionsAnswered with h | h
  · simp [h]
  · simp [h, Nat.pos_iff_ne_zero.mp h]

/-- C2: on a running test, `endABTest` stamps `endedAt`, computes the winner
by the spec's rule (`inconclusive` on a small difference or a small sample,
otherwise the higher-rate side, which really does have the strictly higher
rate), and computes the pooled two-proportion p-value through the spec's
`Φ` approximation exactly when the combined sample exceeds 20, leaving
`pValue` unset otherwise. -/
theorem endABTest_matches_spec (st : RAGState) (t : ABTest) (now : ℝ)
    (hrun : st.activeABTest = some t) (hend : t.endedAt = none)
    (hpv : t.results.pValue = none) :
    ((endABTest st now).2.map ABTest.endedAt = some (some now)) ∧
    ((endABTest st now).2.map (fun x => x.results.winner)
        = some (some (winnerSpec t.results.configAStats t.results.configBStats))) ∧
    ((endABTest st now).2.map (fun x => x.results.pValue)
        = some (if 20 < t.results.configAStats.questionsAnswered
              + t.results.configBStats.questionsAnswered
            then some (pValueSpec t.results.configAStats t.results.configBStats)
            else none)) ∧
    ((endABTest st now).1.activeABTest = (endABTest st now).2) ∧
    (winnerSpec t.results.configAStats t.results.configBStats = ABWinner.A →
      configRateSpec t.results.configBStats < configRateSpec t.results.configAStats) ∧
    (winnerSpec t.results.configAStats t.results.configBStats = ABWinner.B →
      configRateSpec t.results.configAStats < configRateSpec t.results.configBStats) := by
  obtain ⟨sources, active⟩ := st
  simp only [RAGState.mk.injEq] at hrun ⊢
  have hactive : active = some t := by simpa using hrun
  subst hactive
  obtain ⟨tid, tname, tdesc, tstart, tended, tcA, tcB, tactive, tres⟩ := t
  simp only at hend hpv
  subst hend
  refine ⟨?_, ?_, ?_, ?_, ?_, ?_⟩
  · rfl
  · simp only [endABTest, Option.map_some, Option.some.injEq]
    unfold winnerSpec
    rw [← codeRate_eq_spec, ← codeRate_eq_spec]
    rfl
  · show some _ = _
    simp only [Option.map_some, Option.some.injEq]
    by_cases hn : 20 < tres.configAStats.questionsAnswered + tres.configBStats.questionsAnswered
    · rw [if_pos hn, if_pos hn]
      unfold pValueSpec
      simp only
      rw [← codeRate_eq_spec, ← codeRate_eq_spec, normalCDF_eq_phiSpec, abs_div,
        abs_of_nonneg (Real.sqrt_nonneg _)]
    · rw [if_neg hn, if_neg hn, hpv]
  · rfl
  · intro hw
    unfold winnerSpec at hw
    by_cases hc : |configRateSpec tres.configAStats - configRateSpec tres.configBStats| < 0.05
        ∨ tres.configAStats.questionsAnswered < 10 ∨ tres.configBStats.questionsAnswered < 10
    · rw [if_pos hc] at hw
      exact absurd hw (by simp)
    · rw [if_neg hc] at hw
      by_cases hr : configRateSpec tres.configBStats < configRateSpec tres.configAStats
      · exact hr
      · rw [if_neg hr] at hw
        exact absurd hw (by simp)
  · intro hw
    unfold winnerSpec at hw
    by_cases hc : |configRateSpec tres.configAStats - configRateSpec tres.configBStats| < 0.05
        ∨ tres.configAStats.questionsAnswered < 10 ∨ tres.configBStats.questionsAnswered < 10
    · rw [if_pos hc] at hw
      exact absurd hw (by simp)
    · rw [if_neg hc] at hw
      by_cases hr : configRateSpec tres.configBStats < configRateSpec tres.configAStats
      · rw [if_pos hr] at hw
        exact absurd hw (by simp)
      · push_neg at hc hr
        rcases lt_or_eq_of_le hr with h | h
        · exact h
        · exfalso
          rw [h] at hc
          simp at hc
          linarith [hc.1]

theorem find?_map_overwrite {α : Type} (m : List (String × α)) (k : String) (v : α)
    (hany : m.any (fun p => p.1 == k) = true) :
    (m.map (fun p => if p.1 == k then (k, v) else p)).find? (fun p => p.1 == k)
      = some (k, v) := by
  induction m with
  | nil => simp at hany
  | cons r m' ih =>
    simp only [List.any_cons, Bool.or_eq_true] at hany
    by_cases hk : (r.1 == k) = true
    · simp only [List.map_cons, if_pos hk]
      rw [List.find?_cons_of_pos _ (by simp)]
    · have hany' : m'.any (fun p => p.1 == k) = true := by
        rcases hany with h | h
        · exact absurd h hk
        · exact h
      simp only [List.map_cons, if_neg hk]
      rw [List.find?_cons_of_neg _ (by simpa using hk)]
      exact ih hany'

theorem find?_append_new {α : Type} (m : List (String × α)) (k : String) (v : α)
    (hany : m.any (fun p => p.1 == k) = false) :
    (m ++ [(k, v)]).find? (fun p => p.1 == k) = some (k, v) := by
  induction m with
  | nil => simp
  | cons r m' ih =>
    simp only [List.any_cons, Bool.or_eq_false_iff] at hany
    rw [List.cons_append, List.find?_cons_of_neg _ (by simp [hany.1])]
    exact ih hany.2

theorem mapGet_mapSet_self {α : Type} (m : List (String × α)) (k : String) (v : α) :
    mapGet (mapSet m k v) k = some v := by
  unfold mapGet mapSet
  by_cases hany : m.any (fun p => p.1 == k) = true
  · rw [if_pos hany, find?_map_overwrite m k v hany]
    rfl
  · rw [if_neg hany, find?_append_new m k v ?_]
    · rfl
    · cases hb : m.any fun p => p.1 == k
      · rfl
      · exact absurd hb hany

theorem mem_mapSet {α : Type} {m : List (String × α)} {k : String} {v : α} {q : String × α}
    (hq : q ∈ mapSet m k v) : q ∈ m ∨ q = (k, v) := by
  unfold mapSet at hq
  split at hq
  · rcases List.mem_map.mp hq with ⟨r, hr, hrq⟩
    by_cases hk : (r.1 == k) = true
    · right
      rw [if_pos hk] at hrq
      exact hrq.symm
    · left
      rw [if_neg hk] at hrq
      rwa [hrq] at hr
  · rcases List.mem_append.mp hq with h | h
    · left
      exact h
    · right
      simpa using h

theorem updateLearningScore_history (h : List FeedbackEvent) (now : ℝ) :
    (updateLearningScoreWithDecay h now).feedbackHistory
      = h.map (fun e => { e with weight := decayWeight now e.timestamp }) := by
  by_cases hne : h = []
  · subst hne
    simp [updateLearningScoreWithDecay]
  · rw [updateLearningScore_nonempty h now hne]

theorem autoAdjustPriority_usageStats (s : DocumentSource) :
    (autoAdjustPriority s).usageStats = s.usageStats := by
  unfold autoAdjustPriority
  dsimp only
  split_ifs <;> rfl

theorem processOneFeedback_unknown (sources : List (String × DocumentSource))
    (sid : String) (isPositive : Bool) (now : ℝ) (h : mapGet sources sid = none) :
    processOneFeedback sources sid isPositive now = sources := by
  unfold processOneFeedback
  rw [h]

theorem processOneFeedback_known (sources : List (String × DocumentSource))
    (sid : String) (isPositive : Bool) (now : ℝ) (source : DocumentSource)
    (h : mapGet sources sid = some source) :
    processOneFeedback sources sid isPositive now
      = mapSet sources sid (applyFeedbackToSource source isPositive now) := by
  unfold processOneFeedback
  rw [h]

theorem statsWF_ite_autoAdjust (c : Prop) [Decidable c] (s : DocumentSource)
    (h : statsWF s.usageStats) :
    statsWF (if c then autoAdjustPriority s else s).usageStats := by
  split_ifs
  · rwa [autoAdjustPriority_usageStats]
  · exact h

theorem applyFeedbackToSource_wf (source : DocumentSource) (isPositive : Bool) (now : ℝ) :
    statsWF (applyFeedbackToSource source isPositive now).usageStats := by
  have hb := updateLearningScore_bounds
    (source.usageStats.feedbackHistory
      ++ [{ timestamp := now, isPositive := isPositive, weight := 1 }]) now
  unfold applyFeedbackToSource
  dsimp only
  exact statsWF_ite_autoAdjust _ _ hb

theorem processOneFeedback_wf (sources : List (String × DocumentSource)) (sid : String)
    (isPositive : Bool) (now : ℝ) (h : allWF sources) :
    allWF (processOneFeedback sources sid isPositive now) := by
  cases hget : mapGet sources sid with
  | none => rwa [processOneFeedback_unknown sources sid isPositive now hget]
  | some source =>
    rw [processOneFeedback_known sources sid isPositive now source hget]
    intro q hq
    rcases mem_mapSet hq with hmem | heq
    · exact h q hmem
    · rw [heq]
      exact applyFeedbackToSource_wf source isPositive now

theorem foldl_processOneFeedback_wf (ids : List String) (isPositive : Bool) (now : ℝ) :
    ∀ sources, allWF sources →
      allWF (ids.foldl (fun acc sid => processOneFeedback acc sid isPositive now) sources) := by
  induction ids with
  | nil => intro sources h; simpa using h
  | cons sid ids ih =>
    intro sources h
    simp only [List.foldl_cons]
    exact ih _ (processOneFeedback_wf sources sid isPositive now h)

/-- C9: sources are created with `learningScore = 0.5` and confidence interval
`[0.3, 0.7]` (a well-formed state), and `processFeedback` preserves the
invariant that every source's `learningScore` lies in `[0,1]` and its
confidence interval is an ordered pair inside `[0,1]`. -/
theorem feedback_preserves_stats_invariant :
    initialUsageStats.learningScore = 0.5 ∧
    initialUsageStats.confidenceInterval = (0.3, 0.7) ∧
    statsWF initialUsageStats ∧
    (∀ (st : RAGState) (ids : List String) (isPositive : Bool) (now : ℝ),
      allWF st.sources → allWF (processFeedback st ids isPositive now).sources) := by
  refine ⟨rfl, rfl, ?_, ?_⟩
  · unfold statsWF initialUsageStats
    norm_num
  · intro st ids isPositive now h
    unfold processFeedback
    split_ifs with hlen
    · exact h
    · exact foldl_processOneFeedback_wf ids isPositive now st.sources h

theorem foldl_processOneFeedback_unknown (ids : List String) (isPositive : Bool) (now : ℝ)
    (sources : List (String × DocumentSource))
    (h : ∀ sid ∈ ids, mapGet sources sid = none) :
    ids.foldl (fun acc sid => processOneFeedback acc sid isPositive now) sources = sources := by
  induction ids with
  | nil => simp
  | cons sid ids ih =>
    simp only [List.foldl_cons]
    rw [processOneFeedback_unknown sources sid isPositive now (h sid (by simp))]
    exact ih fun x hx => h x (by simp [hx])

/-- C10: `processFeedback` with an empty source-id list is a complete no-op
(the state, including any running experiment's statistics, is returned
untouched), whereas a non-empty id list matching no registered source leaves
the sources map unchanged but still increments the running experiment's active
config counters. -/
theorem processFeedback_empty_frame (st : RAGState) (t : ABTest) (sourceIds : List String)
    (isPositive : Bool) (now : ℝ) :
    (processFeedback st [] isPositive now = st) ∧
    (st.activeABTest = some t → t.endedAt = none → sourceIds ≠ [] →
      (∀ sid ∈ sourceIds, mapGet st.sources sid = none) →
      ((processFeedback st sourceIds isPositive now).sources = st.sources ∧
        (processFeedback st sourceIds isPositive now).activeABTest.map
            (fun x => (activeConfigStats x).questionsAnswered)
          = some ((activeConfigStats t).questionsAnswered + 1))) := by
  constructor
  · simp [processFeedback]
  · intro hrun hend hne hunknown
    have hlen : ¬ sourceIds.length = 0 := by
      simpa [List.length_eq_zero] using hne
    have hfold : sourceIds.foldl
        (fun acc sid => processOneFeedback acc sid isPositive now) st.sources = st.sources :=
      foldl_processOneFeedback_unknown sourceIds isPositive now st.sources hunknown
    obtain ⟨sources, active⟩ := st
    simp only at hrun hfold
    subst hrun
    obtain ⟨tid, tname, tdesc, tstart, tended, tcA, tcB, tactive, tres⟩ := t
    simp only at hend
    subst hend
    unfold processFeedback
    rw [if_neg hlen]
    simp only [hfold]
    cases tactive <;> exact ⟨trivial, rfl⟩

/-- C8 (amended): a failing persistence write is caught and logged inside
`saveSourcesToStorage`; the in-memory feedback mutation is retained (the
resulting state is the same as on a successful write) and the call reports
success to the caller, so the failure is neither rolled back nor reported. -/
theorem persistence_failure_swallowed (st : RAGState) (sourceIds : List String)
    (isPositive : Bool) (now : ℝ) (persistFails : Bool) :
    (processFeedbackPersist st sourceIds isPositive now persistFails).1
      = (processFeedbackPersist st sourceIds isPositive now false).1 ∧
    (processFeedbackPersist st sourceIds isPositive now persistFails).2 = Except.ok () := by
  unfold processFeedbackPersist saveSourcesToStorage setItemResult
  cases persistFails <;> split_ifs <;> exact ⟨rfl, rfl⟩

/-- C8 (counterexample): with the persistence write failing, recording
feedback still mutates the registry (the demo source's history grows from 0 to
1 events) and the caller is told the call succeeded: the mutation is not
rolled back and the failure is not reported. -/
theorem persistence_failure_not_rolled_back :
    ((processFeedbackPersist demoState ["s1"] true 0 true).2 = Except.ok ()) ∧
    ((mapGet (processFeedbackPersist demoState ["s1"] true 0 true).1.sources "s1").map
        (fun s => s.usageStats.feedbackHistory.length) = some 1) ∧
    ((mapGet demoState.sources "s1").map
        (fun s => s.usageStats.feedbackHistory.length) = some 0) := by
  refine ⟨rfl, ?_, rfl⟩
  have hget : mapGet demoState.sources "s1" = some demoSource := rfl
  unfold processFeedbackPersist
  rw [if_neg (by norm_num)]
  unfold processFeedback
  rw [if_neg (by norm_num)]
  dsimp only
  rw [List.foldl_cons, List.foldl_nil,
    processOneFeedback_known _ _ _ _ _ hget, mapGet_mapSet_self]
  simp [applyFeedbackToSource, demoSource, initialUsageStats, AUTO_ADJUST_THRESHOLD,
    updateLearningScore_history]

theorem autoAdjustPriority_wide (s : DocumentSource)
    (hwide : (0.3:ℝ) < s.usageStats.confidenceInterval.2 - s.usageStats.confidenceInterval.1) :
    autoAdjustPriority s = s := by
  unfold autoAdjustPriority
  dsimp only
  rw [if_pos hwide]

theorem autoAdjustPriority_priority (s : DocumentSource)
    (hnarrow :
      ¬ (0.3:ℝ) < s.usageStats.confidenceInterval.2 - s.usageStats.confidenceInterval.1) :
    (autoAdjustPriority s).priority = priorityForScoreSpec s.usageStats.learningScore := by
  unfold autoAdjustPriority priorityForScoreSpec
  dsimp only
  rw [if_neg hnarrow]
  by_cases h : (if (0.8:ℝ) ≤ s.usageStats.learningScore then 5
      else if (0.65:ℝ) ≤ s.usageStats.learningScore then 4
      else if (0.35:ℝ) ≤ s.usageStats.learningScore then 3
      else if (0.2:ℝ) ≤ s.usageStats.learningScore then 2 else (1:ℕ)) ≠ s.priority
  · rw [if_pos h]
  · rw [if_neg h]
    exact (not_ne_iff.mp h).symm

/-- C5 (amended): recording feedback on a found source attempts
auto-adjustment exactly when the post-increment rating count reaches the
threshold (default 5); the adjustment is skipped when the recomputed interval
is wider than `0.3` (so it also fires at width exactly `0.3`, not only below
it); when it fires the new priority follows the spec's score thresholds
(`≥0.8→5, ≥0.65→4, ≥0.35→3, ≥0.2→2`, else `1`); and the update is a no-op
when the computed priority equals the current one. -/
theorem recordFeedback_autoAdjust_rule (sources : List (String × DocumentSource))
    (sid : String) (source : DocumentSource) (isPositive : Bool) (now : ℝ)
    (hget : mapGet sources sid = some source) :
    ((mapGet (processOneFeedback sources sid isPositive now) sid).map DocumentSource.priority
      = some (if AUTO_ADJUST_THRESHOLD ≤ newRatingCount source then
          (if 0.3 < (feedbackScoreResult source isPositive now).confidenceInterval.2
                - (feedbackScoreResult source isPositive now).confidenceInterval.1
            then source.priority
            else priorityForScoreSpec (feedbackScoreResult source isPositive now).learningScore)
          else source.priority)) ∧
    (∀ s : DocumentSource, priorityForScoreSpec s.usageStats.learningScore = s.priority →
      autoAdjustPriority s = s) := by
  constructor
  · rw [processOneFeedback_known sources sid isPositive now source hget, mapGet_mapSet_self]
    show some (applyFeedbackToSource source isPositive now).priority = _
    refine congrArg some ?_
    unfold applyFeedbackToSource
    dsimp only
    have hcount : (if isPositive then source.usageStats.positiveRatings + 1
          else source.usageStats.positiveRatings)
        + (if isPositive then source.usageStats.negativeRatings
            else source.usageStats.negativeRatings + 1) = newRatingCount source := by
      unfold newRatingCount
      cases isPositive <;> simp <;> omega
    rw [hcount]
    unfold feedbackScoreResult
    by_cases hth : AUTO_ADJUST_THRESHOLD ≤ newRatingCount source
    · rw [if_pos hth, if_pos hth]
      by_cases hwide :
          (0.3:ℝ) < (updateLearningScoreWithDecay
              (source.usageStats.feedbackHistory
                ++ [{ timestamp := now, isPositive := isPositive, weight := 1 }])
              now).confidenceInterval.2
            - (updateLearningScoreWithDecay
              (source.usageStats.feedbackHistory
                ++ [{ timestamp := now, isPositive := isPositive, weight := 1 }])
              now).confidenceInterval.1
      · rw [if_pos hwide, autoAdjustPriority_wide _ hwide]
      · rw [if_neg hwide, autoAdjustPriority_priority _ hwide]
    · rw [if_neg hth, if_neg hth]
  · intro s hs
    unfold priorityForScoreSpec at hs
    unfold autoAdjustPriority
    dsimp only
    by_cases h1 : (0.3:ℝ) < s.usageStats.confidenceInterval.2 - s.usageStats.confidenceInterval.1
    · rw [if_pos h1]
    · rw [if_neg h1, hs, if_neg (by simp : ¬ s.priority ≠ s.priority)]

theorem decayWeight_c5 : decayWeight 0 c5OldTimestamp = 1807 / 1875 := by
  unfold decayWeight c5OldTimestamp TIME_DECAY_HALF_LIFE
  have hl2 : Real.log 2 ≠ 0 := ne_of_gt (Real.log_pos (by norm_num))
  have harg : -(0 - 30 * 24 * 60 * 60 * 1000 * (Real.log (1807 / 1875) / Real.log 2))
        / (30 * 24 * 60 * 60 * 1000 : ℝ) * Real.log 2 = Real.log (1807 / 1875) := by
    field_simp
    ring
  rw [harg, Real.exp_log (by norm_num : (0:ℝ) < 1807 / 1875)]

theorem weightedTotal_replicate_c3 (n : ℕ) :
    weightedTotal (List.replicate n c3Event) 0 = n := by
  induction n with
  | zero => simp [weightedTotal]
  | succ k ih =>
    rw [List.replicate_succ, weightedTotal_cons, ih]
    simp only [c3Event, decayWeight_self]
    push_cast
    ring

theorem weightedPositive_replicate_c3 (n : ℕ) :
    weightedPositive (List.replicate n c3Event) 0 = n := by
  induction n with
  | zero => simp [weightedPositive]
  | succ k ih =>
    rw [List.replicate_succ, weightedPositive_cons, ih]
    simp only [c3Event, decayWeight_self, if_true]
    push_cast
    ring

theorem c5_weightedTotal :
    weightedTotal (c5History ++ [{ timestamp := 0, isPositive := true, weight := 1 }]) 0
      = 16807 / 1875 := by
  rw [weightedTotal_append_single]
  unfold c5History
  rw [weightedTotal_append_single, weightedTotal_replicate_c3]
  simp only [c5OldEvent, decayWeight_c5, decayWeight_self]
  norm_num

theorem c5_weightedPositive :
    weightedPositive (c5History ++ [{ timestamp := 0, isPositive := true, weight := 1 }]) 0
      = 16807 / 1875 := by
  rw [weightedPositive_append_single]
  unfold c5History
  rw [weightedPositive_append_single, weightedPositive_replicate_c3]
  simp only [c5OldEvent, decayWeight_c5, decayWeight_self, if_true]
  norm_num

theorem c5_history_ne :
    (c5History ++ [({ timestamp := 0, isPositive := true, weight := 1 } : FeedbackEvent)])
      ≠ [] := by
  simp [c5History]

theorem c5_confidenceInterval :
    (updateLearningScoreWithDecay
        (c5History ++ [{ timestamp := 0, isPositive := true, weight := 1 }]) 0).confidenceInterval
      = (0.7, 1) := by
  rw [updateLearningScore_nonempty _ _ c5_history_ne]
  dsimp only
  rw [c5_weightedPositive, c5_weightedTotal]
  rw [show ((16807:ℝ) / 1875) / ((16807:ℝ) / 1875) = 1 from by norm_num]
  rw [show (1:ℝ) * (1 - 1) / (16807 / 1875)
        + 1.96 * 1.96 / (4 * (16807 / 1875 * (16807 / 1875))) = ((75:ℝ) / 686) ^ 2
      from by norm_num]
  rw [Real.sqrt_sq (by norm_num : (0:ℝ) ≤ 75 / 686)]
  norm_num [max_def, min_def]

theorem c5_learningScore :
    (updateLearningScoreWithDecay
        (c5History ++ [{ timestamp := 0, isPositive := true, weight := 1 }]) 0).learningScore
      = 18682 / 20557 := by
  rw [updateLearningScore_nonempty _ _ c5_history_ne]
  dsimp only
  rw [c5_weightedPositive, c5_weightedTotal]
  norm_num

/-- C5 (counterexample): recording a ninth positive feedback event on
`c5Source` recomputes the interval to exactly `[0.7, 1]` (width exactly
`0.3`, hence not `< 0.3`), and the auto-adjustment nevertheless fires,
raising the priority from `3` to `5`: the adjustment does not fire *only*
when the width is strictly below `0.3`. -/
theorem autoAdjust_fires_at_boundary_counterexample :
    ((mapGet (processOneFeedback c5Sources "s1" true 0) "s1").map
        (fun s => (s.priority, s.usageStats.confidenceInterval)) = some (5, (0.7, 1))) ∧
    ¬ ((1:ℝ) - 0.7 < 0.3) ∧
    c5Source.priority = 3 ∧
    AUTO_ADJUST_THRESHOLD ≤ newRatingCount c5Source := by
  have hget : mapGet c5Sources "s1" = some c5Source := rfl
  refine ⟨?_, by norm_num, rfl, by norm_num [newRatingCount, c5Source, c5Stats,
    AUTO_ADJUST_THRESHOLD]⟩
  rw [processOneFeedback_known _ _ _ _ _ hget, mapGet_mapSet_self]
  show some _ = _
  refine congrArg some ?_
  unfold applyFeedbackToSource
  simp only [c5Source, c5Stats, if_true]
  rw [if_pos (by norm_num [AUTO_ADJUST_THRESHOLD])]
  have hwidth : ¬ (0.3:ℝ) < (updateLearningScoreWithDecay
        (c5History ++ [{ timestamp := 0, isPositive := true, weight := 1 }]) 0).confidenceInterval.2
      - (updateLearningScoreWithDecay
        (c5History ++ [{ timestamp := 0, isPositive := true, weight := 1 }]) 0).confidenceInterval.1 := by
    rw [c5_confidenceInterval]
    norm_num
  rw [Prod.mk.injEq]
  refine ⟨?_, ?_⟩
  · rw [autoAdjustPriority_priority _ hwidth]
    dsimp only
    rw [c5_learningScore]
    unfold priorityForScoreSpec
    rw [if_pos (by norm_num : (0.8:ℝ) ≤ 18682 / 20557)]
  · rw [autoAdjustPriority_usageStats]
    dsimp only
    exact c5_confidenceInterval

theorem filter_key_orderedInsert (key : VectorSearchResult → ℝ) (c : ℝ)
    (a : VectorSearchResult) (l : List VectorSearchResult) :
    (l.orderedInsert (keyGE key) a).filter (fun r => decide (key r = c))
      = (a :: l).filter (fun r => decide (key r = c)) := by
  rw [List.orderedInsert_eq_take_drop, List.filter_append, List.filter_cons, List.filter_cons]
  have hsplit : l.filter (fun r => decide (key r = c))
      = (l.takeWhile fun b => decide ¬ keyGE key a b).filter (fun r => decide (key r = c))
        ++ (l.dropWhile fun b => decide ¬ keyGE key a b).filter (fun r => decide (key r = c)) := by
    conv_lhs => rw [← List.takeWhile_append_dropWhile
      (p := fun b => decide ¬ keyGE key a b) (l := l)]
    rw [List.filter_append]
  by_cases hc : key a = c
  · have hpre : (l.takeWhile fun b => decide ¬ keyGE key a b).filter
        (fun r => decide (key r = c)) = [] := by
      rw [List.filter_eq_nil_iff]
      intro b hb
      have hq := List.mem_takeWhile_imp hb
      simp only [decide_eq_true_eq] at hq ⊢
      intro hbc
      exact hq (le_of_eq (hbc.trans hc.symm))
    rw [hpre, hsplit, hpre]
    simp [hc]
  · rw [hsplit]
    simp [hc]

theorem filter_key_insertionSort (key : VectorSearchResult → ℝ) (c : ℝ) :
    ∀ l : List VectorSearchResult,
      (l.insertionSort (keyGE key)).filter (fun r => decide (key r = c))
        = l.filter (fun r => decide (key r = c)) := by
  intro l
  induction l with
  | nil => rfl
  | cons x l ih =>
    rw [List.insertionSort, filter_key_orderedInsert, List.filter_cons, List.filter_cons, ih]

/-- The insertion sort under a descending key relation is THE stable
descending sort. -/
theorem insertionSort_isStable (key : VectorSearchResult → ℝ)
    (l : List VectorSearchResult) :
    IsStableDescSort key l (l.insertionSort (keyGE key)) :=
  ⟨List.sorted_insertionSort (keyGE key) l, fun c => filter_key_insertionSort key c l⟩

theorem cosineSimilarity_ok (a b : List ℝ) (hlen : a.length = b.length) :
    cosineSimilarity a b = Except.ok (cosineSimilaritySpec a b) := by
  unfold cosineSimilarity cosineSimilaritySpec
  rw [if_neg (by simp [hlen])]
  refine congrArg Except.ok ?_
  by_cases h : Real.sqrt ((a.map fun x => x * x).sum) = 0
      ∨ Real.sqrt ((b.map fun x => x * x).sum) = 0
  · rw [if_pos (mul_eq_zero.mpr h), if_pos h]
  · rw [if_neg (fun hm => h (mul_eq_zero.mp hm)), if_neg h]

theorem searchScored_ok (chunks : List TextChunk) (q : List ℝ)
    (hdim : ∀ c ∈ chunks, ∀ e, c.embedding = some e → e.length = q.length) :
    searchScored chunks q = Except.ok (scoredResults chunks q) := by
  induction chunks with
  | nil => rfl
  | cons c rest ih =>
    have hrest : ∀ c' ∈ rest, ∀ e, c'.embedding = some e → e.length = q.length :=
      fun c' hc' => hdim c' (List.mem_cons_of_mem c hc')
    rw [searchScored]
    cases hemb : c.embedding with
    | none =>
      dsimp only
      rw [ih hrest]
      unfold scoredResults
      rw [List.filterMap_cons]
      simp [hemb]
    | some e =>
      dsimp only
      have hlen : q.length = e.length := (hdim c (List.mem_cons_self c rest) e hemb).symm
      rw [cosineSimilarity_ok q e hlen, ih hrest]
      dsimp only
      unfold scoredResults
      rw [List.filterMap_cons]
      simp [hemb]
      rfl

theorem searchWeightedScored_ok (chunks : List TextChunk) (q : List ℝ)
    (m : List (String × ℝ))
    (hdim : ∀ c ∈ chunks, ∀ e, c.embedding = some e → e.length = q.length) :
    searchWeightedScored chunks q m = Except.ok (weightedResults chunks q m) := by
  induction chunks with
  | nil => rfl
  | cons c rest ih =>
    have hrest : ∀ c' ∈ rest, ∀ e, c'.embedding = some e → e.length = q.length :=
      fun c' hc' => hdim c' (List.mem_cons_of_mem c hc')
    rw [searchWeightedScored]
    cases hemb : c.embedding with
    | none =>
      dsimp only
      rw [ih hrest]
      unfold weightedResults
      rw [List.filterMap_cons]
      simp [hemb]
    | some e =>
      dsimp only
      have hlen : q.length = e.length := (hdim c (List.mem_cons_self c rest) e hemb).symm
      rw [cosineSimilarity_ok q e hlen, ih hrest]
      dsimp only
      unfold weightedResults
      rw [List.filterMap_cons]
      simp [hemb]
      rfl

/-- C7: `search` scores every stored chunk that has an embedding by cosine
similarity (`dot/(‖a‖·‖b‖)`, defined as `0` when either norm is `0`), skips
chunks without an embedding, sorts by similarity descending with ties in
original insertion order (stable sort), and truncates to `k`. -/
theorem search_matches_spec (chunks : List TextChunk) (q : List ℝ) (topK : ℕ)
    (hdim : ∀ c ∈ chunks, ∀ e, c.embedding = some e → e.length = q.length) :
    (∀ a b : List ℝ, a.length = b.length →
      cosineSimilarity a b = Except.ok (cosineSimilaritySpec a b)) ∧
    searchScored chunks q = Except.ok (scoredResults chunks q) ∧
    search chunks q topK = Except.ok
      (((scoredResults chunks q).insertionSort (keyGE VectorSearchResult.score)).take topK) ∧
    IsStableDescSort VectorSearchResult.score (scoredResults chunks q)
      ((scoredResults chunks q).insertionSort (keyGE VectorSearchResult.score)) := by
  refine ⟨cosineSimilarity_ok, searchScored_ok chunks q hdim, ?_, insertionSort_isStable _ _⟩
  unfold search
  rw [searchScored_ok chunks q hdim]
  rfl

theorem c6_hdim : ∀ c ∈ c6Chunks, ∀ e, c.embedding = some e → e.length = ([(1:ℝ), 0]).length := by
  intro c hc e he
  simp only [c6Chunks, List.mem_cons, List.not_mem_nil, or_false] at hc
  rcases hc with h | h | h | h | h | h <;> subst h <;>
    (simp only [c6Chunk] at he; cases he; rfl)

theorem resolvePriority_eq_spec (chunk : TextChunk) (m : List (String × ℝ))
    (hov : ∀ p, chunk.metadata.priority = some p → p ≠ 0)
    (hm : ∀ pr ∈ m, pr.2 ≠ (0:ℝ)) :
    resolvePriority chunk m = resolvePrioritySpec chunk m := by
  unfold resolvePriority resolvePrioritySpec orFalsy
  cases hp : chunk.metadata.priority with
  | some p =>
    dsimp only
    rw [if_neg (hov p hp)]
  | none =>
    dsimp only
    cases hg : mapGet m chunk.metadata.source with
    | none => rfl
    | some v =>
      dsimp only
      have hv0 : v ≠ 0 := by
        unfold mapGet at hg
        rcases Option.map_eq_some'.mp hg with ⟨pr, hpr, hv⟩
        exact hv ▸ hm pr (List.mem_of_find?_eq_some hpr)
      rw [if_neg hv0]

theorem resolvePriority_bounds (chunk : TextChunk) (m : List (String × ℝ))
    (hov : ∀ p, chunk.metadata.priority = some p → 1 ≤ p ∧ p ≤ (5:ℝ))
    (hm : ∀ pr ∈ m, 1 ≤ pr.2 ∧ pr.2 ≤ (5:ℝ)) :
    1 ≤ resolvePriority chunk m ∧ resolvePriority chunk m ≤ 5 := by
  unfold resolvePriority orFalsy
  cases hp : chunk.metadata.priority with
  | some p =>
    dsimp only
    have hb := hov p hp
    have hp0 : p ≠ 0 := by
      intro h
      rw [h] at hb
      linarith [hb.1]
    rw [if_neg hp0]
    exact hb
  | none =>
    dsimp only
    cases hg : mapGet m chunk.metadata.source with
    | none => norm_num
    | some v =>
      dsimp only
      have hb : 1 ≤ v ∧ v ≤ (5:ℝ) := by
        unfold mapGet at hg
        rcases Option.map_eq_some'.mp hg with ⟨pr, hpr, hv⟩
        exact hv ▸ hm pr (List.mem_of_find?_eq_some hpr)
      have hv0 : v ≠ 0 := by
        intro h
        rw [h] at hb
        linarith [hb.1]
      rw [if_neg hv0]
      exact hb

theorem weightedKey_some (c : TextChunk) (s w : ℝ) (hw : w ≠ 0) :
    weightedKey { chunk := c, score := s, weightedScore := some w } = w := by
  unfold weightedKey orFalsy
  dsimp only
  rw [if_neg hw]

theorem weightedKey_eq_weightedScore (chunks : List TextChunk) (q : List ℝ)
    (m : List (String × ℝ))
    (hov : ∀ c ∈ chunks, ∀ p, c.metadata.priority = some p → 1 ≤ p ∧ p ≤ (5:ℝ))
    (hm : ∀ pr ∈ m, 1 ≤ pr.2 ∧ pr.2 ≤ (5:ℝ)) :
    ∀ r ∈ weightedResults chunks q m, weightedKey r = r.weightedScore.getD r.score := by
  intro r hr
  unfold weightedResults at hr
  rcases List.mem_filterMap.mp hr with ⟨c, hc, hmap⟩
  rcases Option.map_eq_some'.mp hmap with ⟨e, _he, hre⟩
  subst hre
  unfold weightedKey orFalsy
  dsimp only
  by_cases hw : cosineSimilaritySpec q e * (0.5 + resolvePriority c m * 0.2) = 0
  · rw [if_pos hw]
    have hmult := resolvePriority_bounds c m (hov c hc) hm
    have hs : cosineSimilaritySpec q e = 0 := by
      rcases mul_eq_zero.mp hw with h | h
      · exact h
      · linarith [hmult.1]
    simp only [Option.getD_some]
    rw [hw]
    exact hs
  · rw [if_neg hw]
    simp only [Option.getD_some]

theorem c6_cos : cosineSimilaritySpec [1, 0] [1, 0] = 1 := by
  unfold cosineSimilaritySpec
  norm_num [Real.sqrt_one]

theorem c6_resolveA (id : String) : resolvePriority (c6Chunk id "A") c6Prios = 5 := by
  unfold resolvePriority orFalsy c6Chunk c6Prios mapGet
  norm_num

theorem c6_resolveB (id : String) : resolvePriority (c6Chunk id "B") c6Prios = 1 := by
  unfold resolvePriority orFalsy c6Chunk c6Prios mapGet
  rw [show (List.find? (fun p => p.1 == "B") [(("A":String), (5:ℝ)), ("B", 1)])
    = some ("B", 1) from rfl]
  norm_num

theorem c6_weightedResults : weightedResults c6Chunks [1, 0] c6Prios = c6Expected := by
  unfold weightedResults c6Chunks c6Expected
  simp only [List.filterMap_cons, List.filterMap_nil, c6_cos, c6_resolveA, c6_resolveB,
    show (c6Chunk "a1" "A").embedding = some [(1:ℝ), 0] from rfl,
    show (c6Chunk "a2" "A").embedding = some [(1:ℝ), 0] from rfl,
    show (c6Chunk "a3" "A").embedding = some [(1:ℝ), 0] from rfl,
    show (c6Chunk "b1" "B").embedding = some [(1:ℝ), 0] from rfl,
    show (c6Chunk "b2" "B").embedding = some [(1:ℝ), 0] from rfl,
    show (c6Chunk "b3" "B").embedding = some [(1:ℝ), 0] from rfl,
    Option.map_some]
  norm_num [c6_cos, c6_resolveA, c6_resolveB]

theorem c6_sorted : List.Sorted (keyGE weightedKey) c6Expected := by
  have kA : ∀ c : TextChunk, ∀ s : ℝ,
      weightedKey { chunk := c, score := s, weightedScore := some (1.5:ℝ) } = 1.5 :=
    fun c s => weightedKey_some c s 1.5 (by norm_num)
  have kB : ∀ c : TextChunk, ∀ s : ℝ,
      weightedKey { chunk := c, score := s, weightedScore := some (0.7:ℝ) } = 0.7 :=
    fun c s => weightedKey_some c s 0.7 (by norm_num)
  unfold c6Expected
  simp only [List.sorted_cons, List.mem_cons, List.not_mem_nil, or_false, keyGE]
  norm_num [weightedKey_some]

/-- The §8 scenario holds: `searchWeighted` with `k = 6` returns the three
priority-5 chunks at weighted score `1.5` followed by the three priority-1
chunks at `0.7`. -/
theorem c6_scenario : searchWeighted c6Chunks [1, 0] 6 c6Prios = Except.ok c6Expected := by
  unfold searchWeighted
  rw [searchWeightedScored_ok c6Chunks [1, 0] c6Prios c6_hdim]
  show Except.ok _ = _
  refine congrArg Except.ok ?_
  dsimp only
  rw [c6_weightedResults, List.Sorted.insertionSort_eq c6_sorted]
  rfl

/-- C6: `searchWeighted` gives every embedded chunk
`weightedScore = baseScore * (0.5 + priority * 0.2)` with the priority
resolved as chunk override / caller map / default `3` (multipliers `0.7` to
`1.5` over priorities 1–5), retains the base score, and returns the stable
descending sort by weighted score truncated to `k`; in the §8 scenario the
three priority-5 chunks (weighted `1.5`) rank strictly above the three
priority-1 chunks (weighted `0.7`). -/
theorem searchWeighted_matches_spec (chunks : List TextChunk) (q : List ℝ) (topK : ℕ)
    (m : List (String × ℝ))
    (hdim : ∀ c ∈ chunks, ∀ e, c.embedding = some e → e.length = q.length)
    (hov : ∀ c ∈ chunks, ∀ p, c.metadata.priority = some p → 1 ≤ p ∧ p ≤ (5:ℝ))
    (hm : ∀ pr ∈ m, 1 ≤ pr.2 ∧ pr.2 ≤ (5:ℝ)) :
    searchWeightedScored chunks q m = Except.ok (weightedResults chunks q m) ∧
    (∀ c ∈ chunks, resolvePriority c m = resolvePrioritySpec c m) ∧
    (∀ c ∈ chunks, 0.7 ≤ 0.5 + resolvePriority c m * 0.2
      ∧ 0.5 + resolvePriority c m * 0.2 ≤ 1.5) ∧
    searchWeighted chunks q topK m = Except.ok
      (((weightedResults chunks q m).insertionSort (keyGE weightedKey)).take topK) ∧
    IsStableDescSort weightedKey (weightedResults chunks q m)
      ((weightedResults chunks q m).insertionSort (keyGE weightedKey)) ∧
    (∀ r ∈ weightedResults chunks q m, weightedKey r = r.weightedScore.getD r.score) ∧
    searchWeighted c6Chunks [1, 0] 6 c6Prios = Except.ok c6Expected ∧
    (0.7:ℝ) < 1.5 := by
  refine ⟨searchWeightedScored_ok chunks q m hdim, ?_, ?_, ?_, insertionSort_isStable _ _,
    weightedKey_eq_weightedScore chunks q m hov hm, c6_scenario, by norm_num⟩
  · intro c hc
    refine resolvePriority_eq_spec c m ?_ ?_
    · intro p hp
      have hb := hov c hc p hp
      intro h
      rw [h] at hb
      linarith [hb.1]
    · intro pr hpr
      have hb := hm pr hpr
      intro h
      rw [h] at hb
      linarith [hb.1]
  · intro c hc
    have hb := resolvePriority_bounds c m (hov c hc) hm
    constructor <;> linarith [hb.1, hb.2]
  · unfold searchWeighted
    rw [searchWeightedScored_ok chunks q m hdim]
    rfl

theorem startABTest_replaces_running_test_witness :
    (c1State.activeABTest = some runningTest) ∧ (runningTest.endedAt = none) ∧
    (((startABTest c1State 1 "1" "second" "d" c1ConfigB ConfigId.B).1.activeABTest
        = some (startABTest c1State 1 "1" "second" "d" c1ConfigB ConfigId.B).2) ∧
      ((startABTest c1State 1 "1" "second" "d" c1ConfigB ConfigId.B).2.endedAt = none) ∧
      ((startABTest c1State 1 "1" "second" "d" c1ConfigB ConfigId.B).2.startedAt = 1) ∧
      ((startABTest c1State 1 "1" "second" "d" c1ConfigB ConfigId.B).2.activeConfig
        = ConfigId.B) ∧
      ((startABTest c1State 1 "1" "second" "d" c1ConfigB ConfigId.B).2.configA.sourcePriorities
          = c1State.sources.map fun p => (p.2.id, p.2.priority)) ∧
      ((startABTest c1State 1 "1" "second" "d" c1ConfigB ConfigId.B).2.configB = c1ConfigB)) :=
  ⟨rfl, rfl, startABTest_replaces_running_test c1State runningTest 1 "1" "second" "d"
    c1ConfigB ConfigId.B rfl rfl⟩

theorem endABTest_matches_spec_witness :
    (c2State.activeABTest = some c2Test) ∧ (c2Test.endedAt = none) ∧
    (c2Test.results.pValue = none) ∧
    ((endABTest c2State 5).2.map ABTest.endedAt = some (some 5)) ∧
    ((endABTest c2State 5).2.map (fun x => x.results.winner)
        = some (some (winnerSpec c2Test.results.configAStats c2Test.results.configBStats))) ∧
    ((endABTest c2State 5).2.map (fun x => x.results.pValue)
        = some (if 20 < c2Test.results.configAStats.questionsAnswered
              + c2Test.results.configBStats.questionsAnswered
            then some (pValueSpec c2Test.results.configAStats c2Test.results.configBStats)
            else none)) ∧
    ((endABTest c2State 5).1.activeABTest = (endABTest c2State 5).2) :=
  ⟨rfl, rfl, rfl,
    (endABTest_matches_spec c2State c2Test 5 rfl rfl rfl).1,
    (endABTest_matches_spec c2State c2Test 5 rfl rfl rfl).2.1,
    (endABTest_matches_spec c2State c2Test 5 rfl rfl rfl).2.2.1,
    (endABTest_matches_spec c2State c2Test 5 rfl rfl rfl).2.2.2.1⟩

theorem recordFeedback_autoAdjust_rule_witness :
    (mapGet demoState.sources "s1" = some demoSource) ∧
    ((mapGet (processOneFeedback demoState.sources "s1" true 0) "s1").map
        DocumentSource.priority
      = some (if AUTO_ADJUST_THRESHOLD ≤ newRatingCount demoSource then
          (if 0.3 < (feedbackScoreResult demoSource true 0).confidenceInterval.2
                - (feedbackScoreResult demoSource true 0).confidenceInterval.1
            then demoSource.priority
            else priorityForScoreSpec (feedbackScoreResult demoSource true 0).learningScore)
          else demoSource.priority)) :=
  ⟨rfl, (recordFeedback_autoAdjust_rule demoState.sources "s1" demoSource true 0 rfl).1⟩

theorem feedback_preserves_stats_invariant_witness :
    allWF demoState.sources ∧ allWF (processFeedback demoState ["s1"] true 0).sources := by
  have h : allWF demoState.sources := by
    intro p hp
    simp only [demoState, List.mem_singleton] at hp
    subst hp
    unfold statsWF demoSource initialUsageStats
    norm_num
  exact ⟨h, feedback_preserves_stats_invariant.2.2.2 demoState ["s1"] true 0 h⟩

theorem processFeedback_empty_frame_witness :
    (processFeedback c1State [] true 0 = c1State) ∧
    ((processFeedback c1State ["zzz"] true 0).sources = c1State.sources ∧
      (processFeedback c1State ["zzz"] true 0).activeABTest.map
          (fun x => (activeConfigStats x).questionsAnswered)
        = some ((activeConfigStats runningTest).questionsAnswered + 1)) := by
  have h := processFeedback_empty_frame c1State runningTest ["zzz"] true 0
  refine ⟨h.1, h.2 rfl rfl (by simp) ?_⟩
  intro sid hsid
  simp only [List.mem_singleton] at hsid
  subst hsid
  rfl

theorem search_matches_spec_witness :
    (∀ c ∈ c6Chunks, ∀ e, c.embedding = some e → e.length = ([(1:ℝ), 0]).length) ∧
    (searchScored c6Chunks [1, 0] = Except.ok (scoredResults c6Chunks [1, 0])) ∧
    (search c6Chunks [1, 0] 5 = Except.ok
      (((scoredResults c6Chunks [1, 0]).insertionSort
        (keyGE VectorSearchResult.score)).take 5)) ∧
    IsStableDescSort VectorSearchResult.score (scoredResults c6Chunks [1, 0])
      ((scoredResults c6Chunks [1, 0]).insertionSort (keyGE VectorSearchResult.score)) :=
  ⟨c6_hdim, (search_matches_spec c6Chunks [1, 0] 5 c6_hdim).2.1,
    (search_matches_spec c6Chunks [1, 0] 5 c6_hdim).2.2.1,
    (search_matches_spec c6Chunks [1, 0] 5 c6_hdim).2.2.2⟩

theorem c6_hov : ∀ c ∈ c6Chunks, ∀ p, c.metadata.priority = some p → 1 ≤ p ∧ p ≤ (5:ℝ) := by
  intro c hc p hp
  simp only [c6Chunks, List.mem_cons, List.not_mem_nil, or_false] at hc
  rcases hc with h | h | h | h | h | h <;> subst h <;> simp [c6Chunk] at hp

theorem c6_hm : ∀ pr ∈ c6Prios, 1 ≤ pr.2 ∧ pr.2 ≤ (5:ℝ) := by
  intro pr hpr
  simp only [c6Prios, List.mem_cons, List.not_mem_nil, or_false] at hpr
  rcases hpr with h | h <;> subst h <;> norm_num

theorem searchWeighted_matches_spec_witness :
    (searchWeightedScored c6Chunks [1, 0] c6Prios
      = Except.ok (weightedResults c6Chunks [1, 0] c6Prios)) ∧
    (searchWeighted c6Chunks [1, 0] 6 c6Prios = Except.ok
      (((weightedResults c6Chunks [1, 0] c6Prios).insertionSort (keyGE weightedKey)).take 6)) ∧
    IsStableDescSort weightedKey (weightedResults c6Chunks [1, 0] c6Prios)
      ((weightedResults c6Chunks [1, 0] c6Prios).insertionSort (keyGE weightedKey)) ∧
    (searchWeighted c6Chunks [1, 0] 6 c6Prios = Except.ok c6Expected) ∧
    (0.7:ℝ) < 1.5 := by
  have h := searchWeighted_matches_spec c6Chunks [1, 0] 6 c6Prios c6_hdim c6_hov c6_hm
  exact ⟨h.1, h.2.2.2.1, h.2.2.2.2.1, h.2.2.2.2.2.2.1, h.2.2.2.2.2.2.2⟩

end RAGCore

